import Mathlib

/-!
Shallow embedding of the contact-energy-nz-api synchronization and
aggregation core (FastAPI service in src/app), verified against its
natural-language specification.

Modelling conventions:
* Python floats are modelled as rationals.
* `datetime.date` is a (year, month, day) record; `datetime` values stored
  in the SQLite `date` column are a date plus a time-of-day index, since
  only the chronological order of the stored isoformat strings is ever
  observed (SQL `MIN`/`MAX`/`LIKE 'YYYY-MM-DD%'` on the fixed isoformat
  layout agree with lexicographic order on (year, month, day, time)).
* The `usage_data` table is a list of rows; the UNIQUE(contract_id, date,
  interval) constraint is the `AtMostOne` invariant below.
* Month strings "YYYY-MM" are (year, month) pairs (strftime "%Y-%m" is a
  bijection onto such pairs).
* The upstream API wrapper is a stub function from dates (or months) to
  the already-normalized record list it returns; the TTL cache layer is
  omitted (it is pure memoization, cleared on startup, and invalidated by
  the sync path before each write it fronts).
-/

namespace ContactEnergyNZ

/-- A calendar date, as Python `datetime.date`. -/
structure Date where
  year : Int
  month : Nat
  day : Nat
deriving DecidableEq, Repr

/-- Gregorian leap year (as Python `calendar.isleap`). -/
def isLeap (y : Int) : Bool :=
  (y % 4 == 0 && y % 100 != 0) || y % 400 == 0

/-- Number of days in a month of a given year. -/
def daysInMonth (y : Int) (m : Nat) : Nat :=
  if m == 2 then (if isLeap y then 29 else 28)
  else if m == 4 || m == 6 || m == 9 || m == 11 then 30
  else 31

/-- A structurally valid calendar date. -/
def Date.Valid (d : Date) : Prop :=
  1 ≤ d.month ∧ d.month ≤ 12 ∧ 1 ≤ d.day ∧ d.day ≤ daysInMonth d.year d.month

instance : DecidablePred Date.Valid := fun d => by
  unfold Date.Valid; infer_instance

/-- `d - timedelta(days=1)`. -/
def Date.pred (d : Date) : Date :=
  if 2 ≤ d.day then { d with day := d.day - 1 }
  else if 2 ≤ d.month then
    { year := d.year, month := d.month - 1,
      day := daysInMonth d.year (d.month - 1) }
  else
    { year := d.year - 1, month := 12, day := 31 }

/-- `d - timedelta(days=n)`. -/
def Date.sub (d : Date) : Nat → Date
  | 0 => d
  | n + 1 => (Date.sub d n).pred

/-- Chronological strict order on dates; it coincides with lexicographic
order of the isoformat strings. -/
def Date.lt (a b : Date) : Prop :=
  a.year < b.year ∨
    (a.year = b.year ∧
      (a.month < b.month ∨ (a.month = b.month ∧ a.day < b.day)))

instance : DecidableRel Date.lt := fun a b => by
  unfold Date.lt; infer_instance

/-- A `datetime` value as stored in the `date` column: a calendar date plus
an order-preserving index for the time of day. -/
structure DateTime where
  date : Date
  tod : Nat
deriving DecidableEq, Repr

/-- Chronological (isoformat-string) order on stored datetimes. -/
def DateTime.leB (a b : DateTime) : Bool :=
  decide (Date.lt a.date b.date) ||
    (a.date == b.date && a.tod ≤ b.tod)

/-- `datetime.combine(d, datetime.min.time())`. -/
def DateTime.atMidnight (d : Date) : DateTime := ⟨d, 0⟩

/-- A month key, standing for the strftime "%Y-%m" string. -/
structure MonthKey where
  year : Int
  month : Nat
deriving DecidableEq, Repr

/-- The "%Y-%m" key of a date. -/
def Date.ym (d : Date) : MonthKey := ⟨d.year, d.month⟩

/-- Python `date.fromisoformat` for the canonical dashed "YYYY-MM-DD"
layout: digits in the digit positions, dashes at 4 and 7, and a valid
calendar date. -/
def fromisoformat (s : String) : Option Date :=
  let cs := s.toList
  if cs.length = 10 then
    let digit (c : Char) : Bool := c.isDigit
    let ok :=
      (List.range 10).all (fun i =>
        if i = 4 ∨ i = 7 then cs.getD i ' ' == '-'
        else digit (cs.getD i ' '))
    if ok then
      let num (l : List Char) : Nat :=
        l.foldl (fun a c => a * 10 + (c.toNat - '0'.toNat)) 0
      let y : Int := Int.ofNat (num (cs.take 4))
      let m : Nat := num ((cs.drop 5).take 2)
      let d : Nat := num ((cs.drop 8).take 2)
      let date : Date := ⟨y, m, d⟩
      if date.Valid then some date else none
    else none
  else none

/-! ## Data model (src/app/models.py) -/

/-- `UsageData`: one usage observation (pydantic model). -/
structure UsageData where
  date : DateTime
  value : ℚ
  unit : String
  dollar_value : Option ℚ := none
  offpeak_value : Option ℚ := none
  offpeak_dollar_value : Option ℚ := none
  uncharged_value : Option ℚ := none
deriving DecidableEq, Repr

/-- `HourlyUsageData`: hourly breakdown with totals. -/
structure HourlyUsageData where
  date : DateTime
  hours : List UsageData
  total_value : ℚ
  total_dollar_value : Option ℚ
deriving DecidableEq, Repr

/-- `MonthlyAggregate`. -/
structure MonthlyAggregate where
  month : MonthKey
  value : ℚ
  unit : String
  dollar_value : Option ℚ
  daily_average : ℚ
  days_with_data : Nat
deriving DecidableEq, Repr

/-- `Comparisons`. -/
structure Comparisons where
  vs_yesterday : Option ℚ := none
  vs_last_month : Option ℚ := none
  vs_same_day_last_week : Option ℚ := none
deriving DecidableEq, Repr

/-- `UsageSummary` exactly as declared in models.py: note that it has NO
latest_day / previous_day / data_as_of fields. -/
structure UsageSummary where
  contract_id : String
  today : Option UsageData := none
  yesterday : Option UsageData := none
  this_month : Option MonthlyAggregate := none
  last_month : Option MonthlyAggregate := none
  comparisons : Comparisons := {}
deriving DecidableEq, Repr

/-- The keyword arguments `UsageService.get_summary` actually passes to the
`UsageSummary(...)` constructor (usage_service.py lines 293-303). -/
structure UsageSummaryCtorArgs where
  contract_id : String
  today : Option UsageData
  yesterday : Option UsageData
  this_month : Option MonthlyAggregate
  last_month : Option MonthlyAggregate
  comparisons : Comparisons
  latest_day : Option UsageData
  previous_day : Option UsageData
  data_as_of : Option Date
deriving DecidableEq, Repr

/-- Pydantic model construction with the default `extra='ignore'`
configuration: keyword arguments that are not declared fields of the model
are silently discarded. -/
def usageSummaryInit (a : UsageSummaryCtorArgs) : UsageSummary :=
  { contract_id := a.contract_id
    today := a.today
    yesterday := a.yesterday
    this_month := a.this_month
    last_month := a.last_month
    comparisons := a.comparisons }

/-! ## Storage (src/app/db/database.py, src/app/db/repositories.py) -/

/-- One row of the `usage_data` table. -/
structure Row where
  contract_id : String
  ts : DateTime
  interval : String
  value : ℚ
  unit : String
  dollar_value : Option ℚ
  offpeak_value : Option ℚ
  offpeak_dollar_value : Option ℚ
  uncharged_value : Option ℚ
deriving DecidableEq, Repr

/-- The `usage_data` table. -/
abbrev Store := List Row

/-- The UNIQUE(contract_id, date, interval) key of a row. -/
def Row.key (r : Row) : String × DateTime × String :=
  (r.contract_id, r.ts, r.interval)

/-- The UNIQUE constraint of the schema: at most one row per key. -/
def AtMostOne (s : Store) (k : String × DateTime × String) : Prop :=
  (s.filter (fun r => r.key = k)).length ≤ 1

/-- `UsageRepository.upsert_usage`: INSERT ... ON CONFLICT(contract_id,
date, interval) DO UPDATE SET all measured columns. -/
def upsert_usage (s : Store) (c : String) (ts : DateTime) (iv : String)
    (v : ℚ) (u : String) (dv ov odv uv : Option ℚ) : Store :=
  let repl (r : Row) : Row :=
    { r with
      value := v
      unit := u
      dollar_value := dv
      offpeak_value := ov
      offpeak_dollar_value := odv
      uncharged_value := uv }
  if s.any (fun r => r.key = (c, ts, iv)) then
    s.map (fun r => if r.key = (c, ts, iv) then repl r else r)
  else
    s ++ [⟨c, ts, iv, v, u, dv, ov, odv, uv⟩]

/-- SQLite SUM over a nullable column: NULL when there is no non-null
input, otherwise the sum of the non-null inputs. -/
def sqlSum (xs : List (Option ℚ)) : Option ℚ :=
  let vs := xs.filterMap id
  if vs.isEmpty then none else some vs.sum

/-- SQLite MIN over the (non-null) `date` column. -/
def sqlMinTs (xs : List DateTime) : Option DateTime :=
  xs.foldl (fun acc t =>
    match acc with
    | none => some t
    | some m => if DateTime.leB t m then some t else some m) none

/-- SQLite MAX over the (non-null) `date` column. -/
def sqlMaxTs (xs : List DateTime) : Option DateTime :=
  xs.foldl (fun acc t =>
    match acc with
    | none => some t
    | some m => if DateTime.leB m t then some t else some m) none

/-- SQLite MAX over the (non-null) text `unit` column. -/
def sqlMaxStr (xs : List String) : Option String :=
  xs.foldl (fun acc t =>
    match acc with
    | none => some t
    | some m => if m < t then some t else some m) none

/-- Rows of a contract at a given interval whose stored timestamp matches
LIKE 'YYYY-MM-DD%' for the given date. -/
def rowsForDate (s : Store) (c : String) (d : Date) (iv : String) :
    List Row :=
  s.filter (fun r =>
    r.contract_id = c ∧ r.ts.date = d ∧ r.interval = iv)

/-- `UsageRepository.has_data_for_date`. -/
def has_data_for_date (s : Store) (c : String) (d : Date)
    (iv : String) : Bool :=
  !(rowsForDate s c d iv).isEmpty

/-- Rows of a contract at interval 'daily' whose stored timestamp matches
LIKE 'YYYY-MM%' for the given month. -/
def rowsForMonth (s : Store) (c : String) (mo : MonthKey) : List Row :=
  s.filter (fun r =>
    r.contract_id = c ∧ r.ts.date.ym = mo ∧ r.interval = "daily")

/-- `UsageRepository.has_data_for_month`. -/
def has_data_for_month (s : Store) (c : String) (mo : MonthKey) : Bool :=
  !(rowsForMonth s c mo).isEmpty

/-- `UsageRepository.get_daily_total_from_db`: SUM across all hourly rows
on the date; absent when there are no matching rows. -/
def get_daily_total_from_db (s : Store) (c : String) (d : Date) :
    Option UsageData :=
  let rows := rowsForDate s c d "hourly"
  if rows.isEmpty then none
  else
    some
      { date := (sqlMinTs (rows.map (·.ts))).getD (DateTime.atMidnight d)
        value := (rows.map (·.value)).sum
        unit := (sqlMaxStr (rows.map (·.unit))).getD "kWh"
        dollar_value := sqlSum (rows.map (·.dollar_value))
        offpeak_value := sqlSum (rows.map (·.offpeak_value))
        offpeak_dollar_value := sqlSum (rows.map (·.offpeak_dollar_value))
        uncharged_value := sqlSum (rows.map (·.uncharged_value)) }

/-- Chronological comparison used for ORDER BY date ASC. -/
def rowLe (a b : Row) : Prop := DateTime.leB a.ts b.ts = true

instance : DecidableRel rowLe := fun a b => by
  unfold rowLe; infer_instance

/-- `UsageRepository.get_hourly_data_for_date`: hourly rows of the date,
ORDER BY date ASC. -/
def get_hourly_data_for_date (s : Store) (c : String) (d : Date) :
    List UsageData :=
  ((rowsForDate s c d "hourly").insertionSort rowLe).map fun r =>
    { date := r.ts
      value := r.value
      unit := r.unit
      dollar_value := r.dollar_value
      offpeak_value := r.offpeak_value
      offpeak_dollar_value := r.offpeak_dollar_value
      uncharged_value := r.uncharged_value }

/-- `UsageRepository.get_monthly_aggregate_from_db`: SUM across daily rows
of the month; absent when there are no matching rows. -/
def get_monthly_aggregate_from_db (s : Store) (c : String)
    (mo : MonthKey) : Option MonthlyAggregate :=
  let rows := rowsForMonth s c mo
  if rows.isEmpty then none
  else
    let total := (rows.map (·.value)).sum
    let days := rows.length
    some
      { month := mo
        value := total
        unit := (sqlMaxStr (rows.map (·.unit))).getD "kWh"
        dollar_value := sqlSum (rows.map (·.dollar_value))
        daily_average := if days = 0 then 0 else total / days
        days_with_data := days }

/-- `UsageRepository.get_latest_data_date`: MAX(date) for an interval,
truncated to a calendar date. -/
def get_latest_data_date (s : Store) (c : String) (iv : String) :
    Option Date :=
  let rows := s.filter (fun r => r.contract_id = c ∧ r.interval = iv)
  (sqlMaxTs (rows.map (·.ts))).map (·.date)

/-! ## Upstream wrapper / normalizer
(src/app/services/contact_api.py, `ContactApiWrapper.get_hourly_usage`) -/

/-- One entry of a raw upstream payload list: a convertible `UsageDatum`,
an error string mixed into the list, or an entry on which
`_convert_usage_datum` raises. -/
inductive RawDatum where
  | ok (d : UsageData)
  | str (s : String)
  | bad
deriving DecidableEq, Repr

/-- The value `api.get_hourly_usage` returns when it does not raise. -/
inductive RawValue where
  | noneVal
  | str (s : String)
  | nonIterable
  | list (l : List RawDatum)
deriving DecidableEq, Repr

/-- The outcome of the underlying library call: a value, a `TypeError`, or
any other exception. -/
inductive RawResult where
  | value (v : RawValue)
  | typeError
  | otherError
deriving DecidableEq, Repr

/-- Python truthiness of a raw value (`if not usage_data`). -/
def RawValue.falsy : RawValue → Bool
  | .noneVal => true
  | .str s => s.isEmpty
  | .list l => l.isEmpty
  | .nonIterable => false

/-- `ContactApiWrapper._convert_usage_datum` guarded by the per-entry
try/except of the loop: strings are skipped, failing conversions are
skipped, surviving entries are mapped to `UsageData`. -/
def convertLoop : List RawDatum → List UsageData
  | [] => []
  | .ok d :: rest => d :: convertLoop rest
  | .str _ :: rest => convertLoop rest
  | .bad :: rest => convertLoop rest

/-- `ContactApiWrapper.get_hourly_usage`: the defensive normalizer. Every
exception from the library call is caught and yields `[]`; falsy, string
and non-iterable payloads yield `[]`; list payloads go through the
skip-on-failure conversion loop. -/
def normalize_hourly_payload (r : RawResult) : List UsageData :=
  match r with
  | .typeError => []
  | .otherError => []
  | .value v =>
    if v.falsy then []
    else
      match v with
      | .str _ => []
      | .nonIterable => []
      | .noneVal => []
      | .list l => convertLoop l

/-! ## Usage service (src/app/services/usage_service.py)

The service methods are state-passing functions over the `usage_data`
table. The upstream wrapper is a stub `Date → List UsageData` (hourly) or
`MonthKey → List UsageData` (the per-month `get_monthly_usage` range
call); the TTL cache and the accounts/set_contract bookkeeping (which
never touch `usage_data` rows) are omitted. -/

/-- An upstream hourly stub: the normalized result of
`ContactApiWrapper.get_hourly_usage` per date. -/
abbrev HourlyApi := Date → List UsageData

/-- An upstream monthly stub: the normalized result of
`ContactApiWrapper.get_monthly_usage` for a month's date range. -/
abbrev MonthlyApi := MonthKey → List UsageData

/-- `UsageService._fetch_hourly_from_api`: fetch one date from the
upstream stub and upsert every returned record with interval 'hourly'. -/
def fetch_hourly_from_api (s : Store) (api : HourlyApi) (c : String)
    (d : Date) : List UsageData × Store :=
  let hours := api d
  (hours,
    hours.foldl
      (fun st h =>
        upsert_usage st c h.date "hourly" h.value h.unit h.dollar_value
          h.offpeak_value h.offpeak_dollar_value h.uncharged_value)
      s)

/-- Python `sum(xs) or None`: `None` when the sum is zero. -/
def pySumOrNone (xs : List ℚ) : Option ℚ :=
  let t := xs.sum
  if t = 0 then none else some t

/-- `UsageService.get_hourly_usage`: database-first hourly read with
day totals. -/
def get_hourly_usage (s : Store) (api : HourlyApi) (c : String)
    (d : Date) : HourlyUsageData × Store :=
  let dbHours := get_hourly_data_for_date s c d
  let (hours, s') :=
    if dbHours.isEmpty then fetch_hourly_from_api s api c d
    else (dbHours, s)
  ({ date := DateTime.atMidnight d
     hours := hours
     total_value := (hours.map (·.value)).sum
     total_dollar_value :=
       pySumOrNone (hours.map (fun h => h.dollar_value.getD 0)) },
   s')

/-- `UsageService._get_daily_total`: database first, else derive from the
hourly path; absent when the day has no hours. -/
def get_daily_total (s : Store) (api : HourlyApi) (c : String)
    (d : Date) : Option UsageData × Store :=
  match get_daily_total_from_db s c d with
  | some u => (some u, s)
  | none =>
    let (hourly, s') := get_hourly_usage s api c d
    if hourly.hours.isEmpty then (none, s')
    else
      (some
        { date := DateTime.atMidnight d
          value := (hourly.hours.map (·.value)).sum
          unit := (hourly.hours.head?.map (·.unit)).getD "kWh"
          dollar_value :=
            pySumOrNone (hourly.hours.map (fun h => h.dollar_value.getD 0))
          offpeak_value :=
            pySumOrNone (hourly.hours.map (fun h => h.offpeak_value.getD 0))
          offpeak_dollar_value :=
            pySumOrNone
              (hourly.hours.map (fun h => h.offpeak_dollar_value.getD 0))
          uncharged_value :=
            pySumOrNone
              (hourly.hours.map (fun h => h.uncharged_value.getD 0)) },
       s')

/-- `UsageService._fetch_month_from_api`: fetch a month of daily data,
store it with interval 'daily', and aggregate it in memory. -/
def fetch_month_from_api (s : Store) (api : MonthlyApi) (c : String)
    (mo : MonthKey) : Option MonthlyAggregate × Store :=
  let usage := api mo
  if usage.isEmpty then (none, s)
  else
    let s' :=
      usage.foldl
        (fun st u =>
          upsert_usage st c u.date "daily" u.value u.unit u.dollar_value
            u.offpeak_value u.offpeak_dollar_value u.uncharged_value)
        s
    let total := (usage.map (·.value)).sum
    let days := usage.length
    (some
      { month := mo
        value := total
        unit := (usage.head?.map (·.unit)).getD "kWh"
        dollar_value :=
          pySumOrNone (usage.map (fun u => u.dollar_value.getD 0))
        daily_average := if days = 0 then 0 else total / days
        days_with_data := days },
     s')

/-- `UsageService._get_month_aggregate`: database first, else fetch the
month from the API. -/
def get_month_aggregate (s : Store) (api : MonthlyApi) (c : String)
    (mo : MonthKey) : Option MonthlyAggregate × Store :=
  match get_monthly_aggregate_from_db s c mo with
  | some a => (some a, s)
  | none => fetch_month_from_api s api c mo

/-- Result of `UsageService._find_latest_available_data`. -/
structure LatestData where
  latest_day : Option UsageData
  previous_day : Option UsageData
  data_as_of : Option Date
  store : Store

/-- The backward day-by-day probe loop of `_find_latest_available_data`
(`for days_back in range(0, 8)`). -/
def flaLoop (api : HourlyApi) (c : String) (start : Date) :
    List Nat → Option UsageData → Option UsageData → Option Date →
    Store → LatestData
  | [], l, p, a, st => ⟨l, p, a, st⟩
  | k :: ks, l, p, a, st =>
    let check := start.sub k
    if l.isSome ∧ a = some check then flaLoop api c start ks l p a st
    else
      let (data, st') := get_daily_total st api c check
      match data with
      | some u =>
        if u.value > 0 then
          match l with
          | none => flaLoop api c start ks (some u) p (some check) st'
          | some _ =>
            match p with
            | none => ⟨l, some u, a, st'⟩
            | some _ => flaLoop api c start ks l p a st'
        else flaLoop api c start ks l p a st'
      | none => flaLoop api c start ks l p a st'

/-- `UsageService._find_latest_available_data`: database fast path via the
latest stored hourly date, then the bounded 8-day backward search. -/
def find_latest_available_data (s : Store) (api : HourlyApi)
    (c : String) (start : Date) : LatestData :=
  match get_latest_data_date s c "hourly" with
  | some ld =>
    match get_daily_total_from_db s c ld with
    | some u =>
      if u.value > 0 then
        match get_daily_total_from_db s c ld.pred with
        | some v => ⟨some u, some v, some ld, s⟩
        | none =>
          flaLoop api c start (List.range 8) (some u) none (some ld) s
      else flaLoop api c start (List.range 8) (some u) none none s
    | none => flaLoop api c start (List.range 8) none none none s
  | none => flaLoop api c start (List.range 8) none none none s

/-- Python `round(x, 1)` on the idealized rational value: ties to even at
one decimal place. -/
def pyRound1 (x : ℚ) : ℚ :=
  let y := x * 10
  let f : ℤ := ⌊y⌋
  let r := y - f
  let n : ℤ :=
    if r < 1 / 2 then f
    else if 1 / 2 < r then f + 1
    else if 2 ∣ f then f else f + 1
  (n : ℚ) / 10

/-- The comparison block of `UsageService.get_summary` (usage_service.py
lines 258-291), applied to the effective (fallback-substituted) today and
yesterday values. -/
def mkComparisons (comparison_today comparison_yesterday : Option UsageData)
    (this_month last_month : Option MonthlyAggregate)
    (last_week : Option UsageData) : Comparisons :=
  let vs_y : Option ℚ :=
    match comparison_today, comparison_yesterday with
    | some t, some y =>
      if y.value > 0 then
        some (pyRound1 ((t.value - y.value) / y.value * 100))
      else none
    | _, _ => none
  let vs_lm : Option ℚ :=
    match this_month, last_month with
    | some a, some b =>
      if b.value > 0 then
        if b.daily_average > 0 then
          some (pyRound1 ((a.daily_average - b.daily_average) /
            b.daily_average * 100))
        else none
      else none
    | _, _ => none
  let vs_w : Option ℚ :=
    match comparison_today, last_week with
    | some t, some w =>
      if w.value > 0 then
        some (pyRound1 ((t.value - w.value) / w.value * 100))
      else none
    | _, _ => none
  { vs_yesterday := vs_y
    vs_last_month := vs_lm
    vs_same_day_last_week := vs_w }

/-- Everything `UsageService.get_summary` computes: the constructor
arguments it passes to `UsageSummary(...)`, the pydantic model that
construction actually produces, and the final store. -/
structure SummaryRun where
  args : UsageSummaryCtorArgs
  model : UsageSummary
  store : Store

/-- `UsageService.get_summary`. -/
def get_summary (s : Store) (hapi : HourlyApi) (mapi : MonthlyApi)
    (c : String) (today : Date) : SummaryRun :=
  let fla := find_latest_available_data s hapi c today
  let (today_data, s2) := get_daily_total fla.store hapi c today
  let (yesterday_data, s3) := get_daily_total s2 hapi c today.pred
  let (this_month_data, s4) := get_month_aggregate s3 mapi c today.ym
  let lastMo := (Date.pred { today with day := 1 }).ym
  let (last_month_data, s5) := get_month_aggregate s4 mapi c lastMo
  let (last_week_data, s6) := get_daily_total s5 hapi c (today.sub 7)
  let comparisons :=
    mkComparisons (today_data.orElse (fun _ => fla.latest_day))
      (yesterday_data.orElse (fun _ => fla.previous_day))
      this_month_data last_month_data last_week_data
  let args : UsageSummaryCtorArgs :=
    { contract_id := c
      today := today_data
      yesterday := yesterday_data
      this_month := this_month_data
      last_month := last_month_data
      comparisons := comparisons
      latest_day := fla.latest_day
      previous_day := fla.previous_day
      data_as_of := fla.data_as_of }
  ⟨args, usageSummaryInit args, s6⟩

/-! ## Sync engine (src/app/services/usage_service.py, sync methods) -/

/-- Accumulator of the hourly-day loop of `sync_contract_data`. -/
structure DayLoopState where
  store : Store
  synced : Nat
  skipped : Nat
  fetched : List Date
deriving Repr

/-- One iteration of the `for days_ago in range(days_back)` loop of
`sync_contract_data`. -/
def syncDayStep (hapi : HourlyApi) (c : String) (force : Bool)
    (today : Date) (st : DayLoopState) (days_ago : Nat) : DayLoopState :=
  let target := today.sub days_ago
  if !force && has_data_for_date st.store c target "hourly" then
    { st with skipped := st.skipped + 1 }
  else
    let (hours, s') := fetch_hourly_from_api st.store hapi c target
    { store := s'
      synced := st.synced + (if hours.isEmpty then 0 else 1)
      skipped := st.skipped
      fetched := st.fetched ++ [target] }

/-- `month_date = month_date - timedelta(days=1); month_date =
month_date.replace(day=1)` (one backward month step). -/
def monthStep (md : Date) : Date := { md.pred with day := 1 }

/-- Iterated backward month stepping. -/
def monthStepIter (md : Date) : Nat → Date
  | 0 => md
  | n + 1 => monthStep (monthStepIter md n)

/-- The `month_date` the sync month loop computes for `months_ago`. -/
def syncMonthDate (today : Date) (months_ago : Nat) : Date :=
  if months_ago = 0 then today
  else monthStepIter { today with day := 1 } months_ago

/-- Accumulator of the month loop of `sync_contract_data`. -/
structure MonthLoopState where
  store : Store
  synced : Nat
  skipped : Nat
  fetched : List MonthKey
deriving Repr

/-- One iteration of the `for months_ago in range(include_months)` loop. -/
def syncMonthStep (mapi : MonthlyApi) (c : String) (force : Bool)
    (today : Date) (st : MonthLoopState) (months_ago : Nat) :
    MonthLoopState :=
  let mo := (syncMonthDate today months_ago).ym
  if !force && has_data_for_month st.store c mo then
    { st with skipped := st.skipped + 1 }
  else
    let (agg, s') := fetch_month_from_api st.store mapi c mo
    { store := s'
      synced := st.synced + (if agg.isSome then 1 else 0)
      skipped := st.skipped
      fetched := st.fetched ++ [mo] }

/-- Outcome of `UsageService.sync_contract_data`: the stats dictionary,
the final table, and the log of upstream fetches actually performed. -/
structure SyncRun where
  store : Store
  hourly_days_synced : Nat
  hourly_days_skipped : Nat
  months_synced : Nat
  months_skipped : Nat
  fetched_days : List Date
  fetched_months : List MonthKey
deriving Repr

/-- `UsageService.sync_contract_data`. -/
def sync_contract_data (s : Store) (hapi : HourlyApi) (mapi : MonthlyApi)
    (c : String) (days_back include_months : Nat) (force : Bool)
    (today : Date) : SyncRun :=
  let dayEnd :=
    (List.range days_back).foldl (syncDayStep hapi c force today)
      ⟨s, 0, 0, []⟩
  let moEnd :=
    (List.range include_months).foldl (syncMonthStep mapi c force today)
      ⟨dayEnd.store, 0, 0, []⟩
  { store := moEnd.store
    hourly_days_synced := dayEnd.synced
    hourly_days_skipped := dayEnd.skipped
    months_synced := moEnd.synced
    months_skipped := moEnd.skipped
    fetched_days := dayEnd.fetched
    fetched_months := moEnd.fetched }

/-- Accumulator of the adaptive hourly loop of
`sync_contract_data_adaptive`. -/
structure AdaptState where
  store : Store
  consecutive_empty : Nat
  synced : Nat
  skipped : Nat
  emptyDays : Nat
  oldest_data_date : Option Date
  fetched : List Date
deriving Repr

/-- One iteration of the adaptive day loop (usage_service.py lines
628-665); the Bool is the `break` signal of the consecutive-empty
threshold. A skipped day resets the consecutive-empty counter; a fresh
empty fetch increments it; a fresh non-empty fetch resets it and records
the date as the oldest-synced watermark. -/
def adaptStep (hapi : HourlyApi) (c : String) (force : Bool)
    (threshold : Nat) (st : AdaptState) (target : Date) :
    AdaptState × Bool :=
  if !force && has_data_for_date st.store c target "hourly" then
    ({ st with skipped := st.skipped + 1, consecutive_empty := 0 }, false)
  else
    let (hours, s') := fetch_hourly_from_api st.store hapi c target
    if hours.isEmpty then
      let ce := st.consecutive_empty + 1
      ({ st with
          store := s'
          consecutive_empty := ce
          emptyDays := st.emptyDays + 1
          fetched := st.fetched ++ [target] },
        decide (threshold ≤ ce))
    else
      ({ st with
          store := s'
          consecutive_empty := 0
          synced := st.synced + 1
          oldest_data_date := some target
          fetched := st.fetched ++ [target] },
        false)

/-- The adaptive day loop over its remaining target dates, honouring the
break signal. -/
def adaptGo (hapi : HourlyApi) (c : String) (force : Bool)
    (threshold : Nat) : List Date → AdaptState → AdaptState
  | [], st => st
  | t :: ts, st =>
    let (st', stop) := adaptStep hapi c force threshold st t
    if stop then st' else adaptGo hapi c force threshold ts st'

/-- The backward day-by-day target dates `start_date - days_ago` for
`days_ago in range(max_days)`. -/
def adaptTargets (start : Date) (max_days : Nat) : List Date :=
  (List.range max_days).map start.sub

/-- Outcome of `UsageService.sync_contract_data_adaptive`. -/
structure AdaptiveRun where
  store : Store
  hourly_days_synced : Nat
  hourly_days_skipped : Nat
  hourly_days_empty : Nat
  months_synced : Nat
  months_skipped : Nat
  oldest_data_date : Option Date
  fetched_days : List Date
  fetched_months : List MonthKey
deriving Repr

/-- `UsageService.sync_contract_data_adaptive`: the adaptive hourly
backfill followed by the same month loop as the regular sync.
`max_days` is `settings.backfill_max_days` (730 when configured 0) and
`threshold` is `settings.backfill_empty_days_threshold` (default 3);
`start` is the caller's start_date (the caller defaults it to
`today - 5 days`). Progress-map writes and inter-call delays have no
observable effect here and are omitted. -/
def sync_contract_data_adaptive (s : Store) (hapi : HourlyApi)
    (mapi : MonthlyApi) (c : String) (include_months : Nat) (force : Bool)
    (start today : Date) (max_days threshold : Nat) : AdaptiveRun :=
  let dayEnd :=
    adaptGo hapi c force threshold (adaptTargets start max_days)
      ⟨s, 0, 0, 0, 0, none, []⟩
  let moEnd :=
    (List.range include_months).foldl (syncMonthStep mapi c force today)
      ⟨dayEnd.store, 0, 0, []⟩
  { store := moEnd.store
    hourly_days_synced := dayEnd.synced
    hourly_days_skipped := dayEnd.skipped
    hourly_days_empty := dayEnd.emptyDays
    months_synced := moEnd.synced
    months_skipped := moEnd.skipped
    oldest_data_date := dayEnd.oldest_data_date
    fetched_days := dayEnd.fetched
    fetched_months := moEnd.fetched }

/-! ## Sync orchestrator (src/app/services/sync.py) -/

/-- The process-wide state `_run_sync` touches: the module-level running
flag, the usage table, and a count of upstream calls performed. -/
structure SyncWorld where
  running : Bool
  store : Store
  upstream_calls : Nat
deriving DecidableEq, Repr

/-- The body of `_run_sync` between `try:` and `finally:` — the
`sync_all_contracts` / `sync_all_contracts_adaptive` work. It transforms
the world and either returns the per-contract results list or raises. -/
abbrev SyncBody (α : Type) := SyncWorld → SyncWorld × Except Unit (List α)

/-- The proceed branch of `_run_sync`: set the flag, run the body, clear
the flag in the guaranteed-execution block, and turn an exception into the
empty result list (the `except Exception: return []` clause). -/
def run_sync_proceed {α : Type} (w : SyncWorld) (body : SyncBody α) :
    SyncWorld × List α :=
  let (w', out) := body { w with running := true }
  match out with
  | .ok r => ({ w' with running := false }, r)
  | .error _ => ({ w' with running := false }, [])

/-- `_run_sync`: single-flight guard around the sync body. -/
def run_sync {α : Type} (w : SyncWorld) (body : SyncBody α) :
    SyncWorld × List α :=
  if w.running then (w, [])
  else run_sync_proceed w body

/-! ## Adaptive-backfill route (src/app/routes/sync.py lines 114-156,
src/app/services/sync.py lines 224-227) -/

/-- The parameter names `trigger_adaptive_backfill` is declared with
(`async def trigger_adaptive_backfill():` — none). -/
def trigger_adaptive_backfill_params : List String := []

/-- Python keyword-argument binding: a call raises `TypeError` unless
every passed keyword is a declared parameter name. -/
def pyCallKwargsOk (params kwargs : List String) : Bool :=
  kwargs.all params.contains

/-- The observable outcomes of the POST /sync/backfill/adaptive handler. -/
inductive AdaptiveBackfillResponse where
  | already_running
  | invalid_start_date (s : String)
  | completed (contracts_synced : Nat)
  | raised_type_error
deriving DecidableEq, Repr

/-- The dispatch at the end of `trigger_adaptive_backfill_all`:
`await trigger_adaptive_backfill(start_date=parsed_start_date)` — the
keyword `start_date` is always passed, whatever it parsed to. The
completed branch is only reachable if the keyword binds. -/
def adaptiveBackfillDispatch (results : List Nat) :
    AdaptiveBackfillResponse :=
  if pyCallKwargsOk trigger_adaptive_backfill_params ["start_date"] then
    .completed results.length
  else .raised_type_error

/-- `trigger_adaptive_backfill_all` (the POST /sync/backfill/adaptive
handler): running guard, start_date validation, then the dispatch.
`results` abstracts what a successful backfill would have returned. -/
def trigger_adaptive_backfill_all (running : Bool)
    (start_date : Option String) (results : List Nat) :
    AdaptiveBackfillResponse :=
  if running then .already_running
  else
    match start_date with
    | some s =>
      match fromisoformat s with
      | none => .invalid_start_date s
      | some _ => adaptiveBackfillDispatch results
    | none => adaptiveBackfillDispatch results

/-! ## Auxiliary definitions used by the statements below -/

/-- The measured fields of one `upsert_usage` call for a fixed key. -/
structure WriteArgs where
  v : ℚ
  u : String
  dv : Option ℚ
  ov : Option ℚ
  odv : Option ℚ
  uv : Option ℚ
deriving DecidableEq, Repr

/-- Apply one keyed write through `upsert_usage`. -/
def applyWrite (s : Store) (c : String) (ts : DateTime) (iv : String)
    (w : WriteArgs) : Store :=
  upsert_usage s c ts iv w.v w.u w.dv w.ov w.odv w.uv

/-- The row a write for a key would leave behind. -/
def rowOfWrite (c : String) (ts : DateTime) (iv : String)
    (w : WriteArgs) : Row :=
  ⟨c, ts, iv, w.v, w.u, w.dv, w.ov, w.odv, w.uv⟩

/-- Length of the run of consecutive empty upstream days ending just
before position `i` of the backward walk from `start`. -/
def trailingEmpty (hapi : HourlyApi) (start : Date) : Nat → Nat
  | 0 => 0
  | i + 1 =>
    if hapi (start.sub i) = [] then trailingEmpty hapi start i + 1 else 0

/-- Concrete summary scenario: "today". -/
def sumToday : Date := ⟨2026, 3, 10⟩

/-- Concrete summary scenario: upstream with no data for today, yesterday
or the two days before, but strictly positive data 3 and 4 days back. -/
def sumHapi : HourlyApi := fun d =>
  if d = ⟨2026, 3, 7⟩ then
    [⟨⟨⟨2026, 3, 7⟩, 10⟩, 5, "kWh", some 2, none, none, none⟩]
  else if d = ⟨2026, 3, 6⟩ then
    [⟨⟨⟨2026, 3, 6⟩, 10⟩, 4, "kWh", some 1, none, none, none⟩]
  else []

/-- Concrete summary scenario: upstream monthly endpoint has nothing. -/
def sumMapi : MonthlyApi := fun _ => []

/-- Concrete summary scenario: `get_summary` on an empty store. -/
def sumRun : SummaryRun := get_summary [] sumHapi sumMapi "c1" sumToday

/-- Usage value (15 kWh) used in the C6 witness. -/
def c6today : UsageData :=
  ⟨⟨⟨2026, 1, 2⟩, 0⟩, 15, "kWh", none, none, none, none⟩

/-- Usage value (10 kWh) used in the C6 witness. -/
def c6yesterday : UsageData :=
  ⟨⟨⟨2026, 1, 1⟩, 0⟩, 10, "kWh", none, none, none, none⟩

/-- Store used in the C7 witness. -/
def c7store : Store :=
  [⟨"c1", ⟨⟨2026, 1, 5⟩, 9⟩, "hourly", 1, "kWh", some 3, none, none, none⟩]

/-- Store used in the C7 counterexample: one hourly row whose present
dollar value is 0. -/
def c7zeroStore : Store :=
  [⟨"c1", ⟨⟨2026, 1, 5⟩, 9⟩, "hourly", 1, "kWh", some 0, none, none, none⟩]

/-! # Theorems -/

section ConcreteComparisonEval

attribute [local semireducible] Rat.add Rat.mul Rat.sub Rat.inv

set_option maxHeartbeats 1600000 in
set_option maxRecDepth 8000 in
theorem mkComparisons_concrete_eval :
    (mkComparisons
      (some ⟨⟨⟨2026, 1, 2⟩, 0⟩, 15, "kWh", none, none, none, none⟩)
      (some ⟨⟨⟨2026, 1, 1⟩, 0⟩, 10, "kWh", none, none, none, none⟩)
      none none none).vs_yesterday = some 50 := by
  decide

end ConcreteComparisonEval

theorem convertLoop_eq_filterMap (l : List RawDatum) :
    convertLoop l =
      l.filterMap (fun e =>
        match e with | RawDatum.ok d => some d | _ => none) := by
  induction l with
  | nil => rfl
  | cons e rest ih => cases e <;> simp [convertLoop, ih]

/-- C9: `ContactApiWrapper.get_hourly_usage` raises nothing to its caller:
library exceptions and string / empty / non-iterable payloads normalize to
the empty list, and a mixed list normalizes to exactly its convertible
entries, in order, with string and unconvertible entries skipped. -/
theorem C9_malformed_payload_tolerance :
    (∀ s, normalize_hourly_payload (.value (.str s)) = []) ∧
    normalize_hourly_payload (.value .noneVal) = [] ∧
    normalize_hourly_payload (.value .nonIterable) = [] ∧
    normalize_hourly_payload .typeError = [] ∧
    normalize_hourly_payload .otherError = [] ∧
    (∀ l, normalize_hourly_payload (.value (.list l)) =
      l.filterMap (fun e =>
        match e with | RawDatum.ok d => some d | _ => none)) := by
  refine ⟨?_, rfl, rfl, rfl, rfl, ?_⟩
  · intro s
    simp only [normalize_hourly_payload, RawValue.falsy]
    split <;> rfl
  · intro l
    cases l with
    | nil => rfl
    | cons a l' =>
      simp [normalize_hourly_payload, RawValue.falsy,
        convertLoop_eq_filterMap]

/-- C10: with no sync running and an absent or well-formed start_date, the
POST /sync/backfill/adaptive handler reaches the dispatch and the call
`trigger_adaptive_backfill(start_date=...)` raises TypeError (the callee
declares no parameters); the endpoint can never reach the completed
state. -/
theorem C10_adaptive_backfill_route_type_error :
    (∀ (sd : Option String) (results : List Nat),
      (sd = none ∨ ∃ s d, sd = some s ∧ fromisoformat s = some d) →
      trigger_adaptive_backfill_all false sd results =
        AdaptiveBackfillResponse.raised_type_error) ∧
    (∀ (running : Bool) (sd : Option String) (results : List Nat)
      (n : Nat),
      trigger_adaptive_backfill_all running sd results ≠
        AdaptiveBackfillResponse.completed n) := by
  have hdisp : ∀ results : List Nat,
      adaptiveBackfillDispatch results =
        AdaptiveBackfillResponse.raised_type_error := fun _ => rfl
  constructor
  · rintro sd results (rfl | ⟨s, d, rfl, hs⟩)
    · simp [trigger_adaptive_backfill_all, hdisp]
    · simp [trigger_adaptive_backfill_all, hs, hdisp]
  · intro running sd results n
    cases running with
    | true => simp [trigger_adaptive_backfill_all]
    | false =>
      cases sd with
      | none => simp [trigger_adaptive_backfill_all, hdisp]
      | some s =>
        cases h : fromisoformat s <;>
          simp [trigger_adaptive_backfill_all, h, hdisp]

theorem C10_witness :
    trigger_adaptive_backfill_all false none [] =
      AdaptiveBackfillResponse.raised_type_error :=
  C10_adaptive_backfill_route_type_error.1 none [] (Or.inl rfl)

/-- C2: `_run_sync` single-flight with guaranteed flag release: a call
that finds the flag set returns the empty result and changes nothing (no
upstream call, no write, flag untouched); a call that finds it clear
leaves the flag clear afterwards whether the body returned or raised, and
a subsequent trigger on the resulting state takes the proceed branch (it
is never rejected). -/
theorem C2_run_sync_single_flight {α : Type} (w : SyncWorld)
    (b1 b2 : SyncBody α) :
    (w.running = true → run_sync w b1 = (w, [])) ∧
    ((run_sync w b1).1.running = false ∨ run_sync w b1 = (w, [])) ∧
    (w.running = false →
      (run_sync w b1).1.running = false ∧
      run_sync (run_sync w b1).1 b2 =
        run_sync_proceed (run_sync w b1).1 b2) := by
  have hproceed : ∀ (w' : SyncWorld) (b : SyncBody α),
      (run_sync_proceed w' b).1.running = false := by
    intro w' b
    unfold run_sync_proceed
    rcases b { w' with running := true } with ⟨w2, out⟩
    cases out <;> rfl
  refine ⟨fun h => ?_, ?_, fun h => ?_⟩
  · simp [run_sync, h]
  · cases hw : w.running
    · left
      simp only [run_sync, hw, Bool.false_eq_true, if_false]
      exact hproceed w b1
    · right
      simp [run_sync, hw]
  · have h1 : run_sync w b1 = run_sync_proceed w b1 := by
      simp [run_sync, h]
    have h2 : (run_sync w b1).1.running = false := by
      rw [h1]; exact hproceed w b1
    have hrs : ∀ w' : SyncWorld, w'.running = false →
        run_sync w' b2 = run_sync_proceed w' b2 := by
      intro w' hb
      simp [run_sync, hb]
    exact ⟨h2, hrs _ h2⟩

theorem C2_witness :
    run_sync (⟨true, [], 0⟩ : SyncWorld)
        (fun w => (w, (Except.error () : Except Unit (List Nat)))) =
      ((⟨true, [], 0⟩ : SyncWorld), ([] : List Nat)) ∧
    (run_sync (⟨false, [], 0⟩ : SyncWorld)
        (fun w => (w, (Except.error () : Except Unit (List Nat))))).1.running
      = false :=
  ⟨(C2_run_sync_single_flight ⟨true, [], 0⟩
      (fun w => (w, Except.error ()))
      (fun w => (w, Except.error ()))).1 rfl,
   ((C2_run_sync_single_flight ⟨false, [], 0⟩
      (fun w => (w, Except.error ()))
      (fun w => (w, Except.error ()))).2.2 rfl).1⟩

/-- C6: the comparison block of `get_summary`: vs_yesterday is
(today - yesterday) / yesterday * 100 rounded to one decimal, computed
exactly when both effective values are present and the effective yesterday
value is strictly positive; a zero or absent yesterday yields an absent
comparison; 15 vs 10 gives 50.0; the same-day-last-week comparison is
analogous. -/
theorem C6_comparison_math (ct cy : Option UsageData)
    (tm lm : Option MonthlyAggregate) (lw : Option UsageData) :
    (∀ t y, ct = some t → cy = some y → 0 < y.value →
      (mkComparisons ct cy tm lm lw).vs_yesterday =
        some (pyRound1 ((t.value - y.value) / y.value * 100))) ∧
    (∀ y, cy = some y → y.value ≤ 0 →
      (mkComparisons ct cy tm lm lw).vs_yesterday = none) ∧
    (cy = none → (mkComparisons ct cy tm lm lw).vs_yesterday = none) ∧
    (ct = none → (mkComparisons ct cy tm lm lw).vs_yesterday = none) ∧
    (∀ t v, ct = some t → lw = some v → 0 < v.value →
      (mkComparisons ct cy tm lm lw).vs_same_day_last_week =
        some (pyRound1 ((t.value - v.value) / v.value * 100))) ∧
    (∀ v, lw = some v → v.value ≤ 0 →
      (mkComparisons ct cy tm lm lw).vs_same_day_last_week = none) ∧
    (mkComparisons
      (some ⟨⟨⟨2026, 1, 2⟩, 0⟩, 15, "kWh", none, none, none, none⟩)
      (some ⟨⟨⟨2026, 1, 1⟩, 0⟩, 10, "kWh", none, none, none, none⟩)
      none none none).vs_yesterday = some 50 := by
  refine ⟨?_, ?_, ?_, ?_, ?_, ?_, mkComparisons_concrete_eval⟩
  · rintro t y rfl rfl hy
    show (if y.value > 0 then
        some (pyRound1 ((t.value - y.value) / y.value * 100))
      else none) = some (pyRound1 ((t.value - y.value) / y.value * 100))
    rw [if_pos hy]
  · rintro y rfl hy
    cases ct with
    | none => rfl
    | some t =>
      show (if y.value > 0 then
          some (pyRound1 ((t.value - y.value) / y.value * 100))
        else none) = none
      rw [if_neg (not_lt.mpr hy)]
  · rintro rfl
    cases ct <;> rfl
  · rintro rfl
    rfl
  · rintro t v rfl rfl hv
    show (if v.value > 0 then
        some (pyRound1 ((t.value - v.value) / v.value * 100))
      else none) = some (pyRound1 ((t.value - v.value) / v.value * 100))
    rw [if_pos hv]
  · rintro v rfl hv
    cases ct with
    | none => rfl
    | some t =>
      show (if v.value > 0 then
          some (pyRound1 ((t.value - v.value) / v.value * 100))
        else none) = none
      rw [if_neg (not_lt.mpr hv)]

theorem C6_witness :
    (mkComparisons (some c6today) (some c6yesterday)
      none none none).vs_yesterday =
      some (pyRound1
        ((c6today.value - c6yesterday.value) / c6yesterday.value * 100)) :=
  (C6_comparison_math (some c6today) (some c6yesterday)
      none none none).1 c6today c6yesterday rfl rfl
    (by show (0 : ℚ) < 10; norm_num)

theorem pySumOrNone_eq_none_iff (xs : List ℚ) :
    pySumOrNone xs = none ↔ xs.sum = 0 := by
  simp only [pySumOrNone]
  split <;> simp_all

theorem pySumOrNone_eq_some (xs : List ℚ) (q : ℚ)
    (h : pySumOrNone xs = some q) : q = xs.sum ∧ q ≠ 0 := by
  simp only [pySumOrNone] at h
  split at h
  · exact absurd h (by simp)
  · injection h with h'
    subst h'
    exact ⟨rfl, by assumption⟩

section ConcreteHourlyEval

attribute [local semireducible] Rat.add Rat.mul Rat.sub Rat.inv

set_option maxHeartbeats 1600000 in
set_option maxRecDepth 8000 in
/-- C7 counterexample: a day whose single hour has a present dollar value
of 0 — the hour list's dollar fields are not all null, and the present
values sum to 0, yet `get_hourly_usage` reports a null
`total_dollar_value` (the claim requires 0.0 there, and requires null
exactly when all dollar fields are null). -/
theorem C7_counterexample :
    ((get_hourly_usage c7zeroStore (fun _ => []) "c1"
        ⟨2026, 1, 5⟩).1.hours.map (·.dollar_value) = [some 0]) ∧
    (get_hourly_usage c7zeroStore (fun _ => []) "c1"
        ⟨2026, 1, 5⟩).1.total_dollar_value = none := by
  constructor <;> decide

end ConcreteHourlyEval

/-- C7 amended: `get_hourly_usage` reports total_value as the sum of the
hour values, and total_dollar_value as the sum of present dollar values
(absent treated as 0) when that sum is nonzero, and null when that sum is
0 — in particular null when all dollar fields are null, but also null
when present dollar values sum to 0. -/
theorem C7_hourly_totals_amended (s : Store) (api : HourlyApi)
    (c : String) (d : Date) :
    (get_hourly_usage s api c d).1.total_value =
      ((get_hourly_usage s api c d).1.hours.map (·.value)).sum ∧
    ((get_hourly_usage s api c d).1.total_dollar_value = none ↔
      ((get_hourly_usage s api c d).1.hours.map
        (fun h => h.dollar_value.getD 0)).sum = 0) ∧
    (∀ q, (get_hourly_usage s api c d).1.total_dollar_value = some q →
      q = ((get_hourly_usage s api c d).1.hours.map
        (fun h => h.dollar_value.getD 0)).sum ∧ q ≠ 0) := by
  unfold get_hourly_usage
  rcases hif : (if (get_hourly_data_for_date s c d).isEmpty then
      fetch_hourly_from_api s api c d
    else (get_hourly_data_for_date s c d, s)) with ⟨hours, s'⟩
  simp only [hif]
  refine ⟨by trivial, pySumOrNone_eq_none_iff _,
    fun q hq => pySumOrNone_eq_some _ q hq⟩

section ConcreteWitnessEval

attribute [local semireducible] Rat.add Rat.mul Rat.sub Rat.inv

set_option maxHeartbeats 1600000 in
set_option maxRecDepth 8000 in
theorem C7_witness :
    ((get_hourly_usage c7store (fun _ => []) "c1"
        ⟨2026, 1, 5⟩).1.total_dollar_value = some 3) ∧
    ((3 : ℚ) = ((get_hourly_usage c7store (fun _ => []) "c1"
        ⟨2026, 1, 5⟩).1.hours.map
          (fun h => h.dollar_value.getD 0)).sum ∧ (3 : ℚ) ≠ 0) :=
  ⟨by decide,
   (C7_hourly_totals_amended c7store (fun _ => []) "c1"
     ⟨2026, 1, 5⟩).2.2 3 (by decide)⟩

set_option maxHeartbeats 4000000 in
set_option maxRecDepth 20000 in
/-- C5 at the failing input: with nothing stored and an upstream that has
data only 3 and 4 days back, `get_summary` internally finds the fallback
values (latest 5 kWh on 2026-03-07, previous 4 kWh on 2026-03-06,
data_as_of 2026-03-07) and computes vs_yesterday = 25.0 from them, but the
`UsageSummary` model it constructs has no latest_day / previous_day /
data_as_of fields, so those kwargs are silently dropped (pydantic default
extra behaviour) and the returned summary does not carry them: the model
construction is invariant under the fallback triple. -/
theorem C5_latest_available_fallback_dropped :
    sumRun.args.latest_day =
      some ⟨⟨⟨2026, 3, 7⟩, 0⟩, 5, "kWh", some 2, none, none, none⟩ ∧
    sumRun.args.previous_day =
      some ⟨⟨⟨2026, 3, 6⟩, 0⟩, 4, "kWh", some 1, none, none, none⟩ ∧
    sumRun.args.data_as_of = some ⟨2026, 3, 7⟩ ∧
    sumRun.args.today = none ∧
    sumRun.args.yesterday = none ∧
    sumRun.args.comparisons.vs_yesterday = some 25 ∧
    sumRun.model =
      { contract_id := "c1", comparisons := sumRun.args.comparisons } ∧
    (∀ (a : UsageSummaryCtorArgs) (l p : Option UsageData)
      (dao : Option Date),
      usageSummaryInit
        { a with latest_day := l, previous_day := p, data_as_of := dao } =
        usageSummaryInit a) := by
  refine ⟨by decide, by decide,
    by decide, by decide,
    by decide, by decide,
    by decide, fun a l p dao => rfl⟩

end ConcreteWitnessEval

/-! ## C3: idempotent upsert -/

theorem repl_key (r : Row) (v : ℚ) (u : String) (dv ov odv uv : Option ℚ) :
    ({ r with
        value := v
        unit := u
        dollar_value := dv
        offpeak_value := ov
        offpeak_dollar_value := odv
        uncharged_value := uv } : Row).key = r.key := rfl

theorem filter_upsert (s : Store) (c : String) (ts : DateTime)
    (iv : String) (v : ℚ) (u : String) (dv ov odv uv : Option ℚ)
    (h : AtMostOne s (c, ts, iv)) :
    (upsert_usage s c ts iv v u dv ov odv uv).filter
        (fun r => r.key = (c, ts, iv)) =
      [⟨c, ts, iv, v, u, dv, ov, odv, uv⟩] := by
  unfold upsert_usage
  by_cases hex : s.any (fun r => r.key = (c, ts, iv)) = true
  · rw [if_pos hex]
    rw [List.any_eq_true] at hex
    obtain ⟨r0, hr0mem, hr0key⟩ := hex
    simp only [decide_eq_true_eq] at hr0key
    have hfe : ∀ r ∈ s,
        (decide ((if r.key = (c, ts, iv) then
          ({ r with
              value := v
              unit := u
              dollar_value := dv
              offpeak_value := ov
              offpeak_dollar_value := odv
              uncharged_value := uv } : Row) else r).key = (c, ts, iv))) =
        decide (r.key = (c, ts, iv)) := by
      intro r _
      by_cases hk : r.key = (c, ts, iv)
      · rw [if_pos hk, repl_key, hk]
      · rw [if_neg hk]
    rw [List.filter_map]
    rw [show ((fun r : Row => decide (r.key = (c, ts, iv))) ∘
        (fun r : Row => if r.key = (c, ts, iv) then
          { r with
              value := v
              unit := u
              dollar_value := dv
              offpeak_value := ov
              offpeak_dollar_value := odv
              uncharged_value := uv } else r)) =
        (fun r : Row => decide ((if r.key = (c, ts, iv) then
          ({ r with
              value := v
              unit := u
              dollar_value := dv
              offpeak_value := ov
              offpeak_dollar_value := odv
              uncharged_value := uv } : Row) else r).key = (c, ts, iv)))
      from rfl]
    rw [List.filter_congr hfe]
    have hlen : (s.filter (fun r => r.key = (c, ts, iv))).length = 1 := by
      have hge : r0 ∈ s.filter (fun r => r.key = (c, ts, iv)) := by
        rw [List.mem_filter]
        exact ⟨hr0mem, by simpa using hr0key⟩
      have h1 : 1 ≤ (s.filter (fun r => r.key = (c, ts, iv))).length :=
        List.length_pos.mpr (List.ne_nil_of_mem hge)
      have h2 : (s.filter (fun r => r.key = (c, ts, iv))).length ≤ 1 := h
      omega
    obtain ⟨r1, hr1⟩ := List.length_eq_one.mp hlen
    have hr1key : r1.key = (c, ts, iv) := by
      have : r1 ∈ s.filter (fun r => r.key = (c, ts, iv)) := by
        rw [hr1]; exact List.mem_singleton_self r1
      simpa using (List.mem_filter.mp this).2
    rw [hr1, List.map_singleton, if_pos hr1key]
    obtain ⟨hc, hts, hiv⟩ : r1.contract_id = c ∧ r1.ts = ts ∧
        r1.interval = iv := by
      have := hr1key
      unfold Row.key at this
      exact ⟨congrArg Prod.fst this,
        congrArg (Prod.fst ∘ Prod.snd) this,
        congrArg (Prod.snd ∘ Prod.snd) this⟩
    congr 1
    cases r1
    simp_all
  · rw [if_neg hex]
    rw [List.filter_append]
    have h0 : s.filter (fun r => r.key = (c, ts, iv)) = [] := by
      rw [List.filter_eq_nil_iff]
      intro a ha
      intro hka
      exact hex (List.any_eq_true.mpr ⟨a, ha, hka⟩)
    rw [h0, List.nil_append]
    rw [List.filter_cons]
    simp [Row.key]

theorem upsert_mem_ne (s : Store) (c : String) (ts : DateTime)
    (iv : String) (v : ℚ) (u : String) (dv ov odv uv : Option ℚ)
    (r : Row) (hr : r.key ≠ (c, ts, iv)) :
    r ∈ upsert_usage s c ts iv v u dv ov odv uv ↔ r ∈ s := by
  unfold upsert_usage
  by_cases hex : s.any (fun r => r.key = (c, ts, iv)) = true
  · rw [if_pos hex]
    constructor
    · intro hmem
      obtain ⟨r', hr'mem, hr'eq⟩ := List.mem_map.mp hmem
      by_cases hk : r'.key = (c, ts, iv)
      · exfalso
        apply hr
        rw [← hr'eq]
        simp only [if_pos hk]
        rw [repl_key, hk]
      · rw [if_neg hk] at hr'eq
        exact hr'eq ▸ hr'mem
    · intro hmem
      refine List.mem_map.mpr ⟨r, hmem, ?_⟩
      rw [if_neg hr]
  · rw [if_neg hex]
    rw [List.mem_append]
    constructor
    · rintro (hmem | hmem)
      · exact hmem
      · exfalso
        apply hr
        rw [List.mem_singleton.mp hmem]
        rfl
    · exact Or.inl

theorem foldl_writes_filter (c : String) (ts : DateTime) (iv : String) :
    ∀ (ws : List WriteArgs) (w0 : WriteArgs) (s : Store),
      AtMostOne s (c, ts, iv) →
      ((w0 :: ws).foldl (fun st w => applyWrite st c ts iv w) s).filter
          (fun r => r.key = (c, ts, iv)) =
        [rowOfWrite c ts iv ((w0 :: ws).getLast (by simp))] := by
  intro ws
  induction ws with
  | nil =>
    intro w0 s hs
    simpa [applyWrite, rowOfWrite] using
      filter_upsert s c ts iv w0.v w0.u w0.dv w0.ov w0.odv w0.uv hs
  | cons w1 rest ih =>
    intro w0 s hs
    have hstep := filter_upsert s c ts iv w0.v w0.u w0.dv w0.ov w0.odv
      w0.uv hs
    have hs' : AtMostOne (applyWrite s c ts iv w0) (c, ts, iv) := by
      unfold AtMostOne
      rw [show applyWrite s c ts iv w0 =
        upsert_usage s c ts iv w0.v w0.u w0.dv w0.ov w0.odv w0.uv from rfl]
      rw [hstep]
      simp
    have := ih w1 (applyWrite s c ts iv w0) hs'
    simpa [List.foldl_cons, List.getLast_cons] using this

/-- C3: for any key, after any nonempty sequence of `upsert_usage` writes
for that key (starting from any table satisfying the UNIQUE constraint at
that key) the table holds exactly one row for the key, carrying precisely
the last write's value, unit and optional cost/offpeak fields, and rows of
every other key are untouched — a duplicate-key write replaces rather than
errors or duplicates. -/
theorem C3_idempotent_upsert (s : Store) (c : String) (ts : DateTime)
    (iv : String) (ws : List WriteArgs) (h : AtMostOne s (c, ts, iv))
    (hne : ws ≠ []) :
    ((ws.foldl (fun st w => applyWrite st c ts iv w) s).filter
        (fun r => r.key = (c, ts, iv))) =
      [rowOfWrite c ts iv (ws.getLast hne)] ∧
    (∀ r : Row, r.key ≠ (c, ts, iv) →
      (r ∈ ws.foldl (fun st w => applyWrite st c ts iv w) s ↔ r ∈ s)) := by
  constructor
  · cases ws with
    | nil => exact absurd rfl hne
    | cons w0 rest => exact foldl_writes_filter c ts iv rest w0 s h
  · intro r hr
    clear hne h
    induction ws generalizing s with
    | nil => simp
    | cons w0 rest ih =>
      rw [List.foldl_cons]
      rw [ih (applyWrite s c ts iv w0)]
      exact upsert_mem_ne s c ts iv w0.v w0.u w0.dv w0.ov w0.odv w0.uv r hr

theorem C3_witness :
    (([⟨1, "kWh", some 2, none, none, none⟩,
       ⟨7, "kWh", none, some 3, none, none⟩] :
        List WriteArgs).foldl
      (fun st w => applyWrite st "c1" ⟨⟨2026, 1, 1⟩, 0⟩ "hourly" w)
      []).filter
        (fun r => r.key = ("c1", ⟨⟨2026, 1, 1⟩, 0⟩, "hourly")) =
      [rowOfWrite "c1" ⟨⟨2026, 1, 1⟩, 0⟩ "hourly"
        ⟨7, "kWh", none, some 3, none, none⟩] :=
  (C3_idempotent_upsert [] "c1" ⟨⟨2026, 1, 1⟩, 0⟩ "hourly"
    [⟨1, "kWh", some 2, none, none, none⟩,
     ⟨7, "kWh", none, some 3, none, none⟩]
    (by simp [AtMostOne]) (by simp)).1

/-! ## Calendar infrastructure -/

theorem daysInMonth_pos (y : Int) (m : Nat) : 1 ≤ daysInMonth y m := by
  unfold daysInMonth
  split
  · split <;> omega
  · split <;> omega

theorem daysInMonth_twelve (y : Int) : daysInMonth y 12 = 31 := by
  simp [daysInMonth]

theorem Date.pred_valid {d : Date} (h : d.Valid) : d.pred.Valid := by
  obtain ⟨h1, h2, h3, h4⟩ := h
  have hp := daysInMonth_pos d.year (d.month - 1)
  have h31 := daysInMonth_twelve (d.year - 1)
  unfold Date.pred Date.Valid
  split
  · dsimp only
    omega
  · split <;> dsimp only <;> omega

theorem Date.pred_lt {d : Date} (h : d.Valid) : Date.lt d.pred d := by
  obtain ⟨h1, h2, h3, h4⟩ := h
  unfold Date.pred Date.lt
  split
  · dsimp only
    omega
  · split <;> dsimp only <;> omega

theorem Date.lt_irrefl (d : Date) : ¬Date.lt d d := by
  unfold Date.lt
  omega

theorem Date.lt_trans {a b c : Date} (h1 : Date.lt a b)
    (h2 : Date.lt b c) : Date.lt a c := by
  unfold Date.lt at *
  omega

theorem Date.sub_valid {d : Date} (h : d.Valid) (n : Nat) :
    (d.sub n).Valid := by
  induction n with
  | zero => exact h
  | succ n ih => exact Date.pred_valid ih

theorem Date.sub_lt_sub {d : Date} (h : d.Valid) {i j : Nat}
    (hij : i < j) : Date.lt (d.sub j) (d.sub i) := by
  induction j with
  | zero => omega
  | succ n ih =>
    have hstep : Date.lt (d.sub (n + 1)) (d.sub n) :=
      Date.pred_lt (Date.sub_valid h n)
    rcases Nat.lt_succ_iff_lt_or_eq.mp hij with h' | rfl
    · exact Date.lt_trans hstep (ih h')
    · exact hstep

theorem Date.sub_inj {d : Date} (h : d.Valid) {i j : Nat}
    (hij : d.sub i = d.sub j) : i = j := by
  rcases Nat.lt_trichotomy i j with hlt | heq | hgt
  · exact absurd (hij ▸ Date.sub_lt_sub h hlt) (Date.lt_irrefl _)
  · exact heq
  · exact absurd (hij ▸ Date.sub_lt_sub h hgt) (Date.lt_irrefl _)

/-! ## Month-key infrastructure -/

/-- The previous month key (what one backward month step computes). -/
def prevYm (mo : MonthKey) : MonthKey :=
  if 2 ≤ mo.month then ⟨mo.year, mo.month - 1⟩ else ⟨mo.year - 1, 12⟩

/-- Strict backward order on month keys. -/
def ymLt (a b : MonthKey) : Prop :=
  a.year < b.year ∨ (a.year = b.year ∧ a.month < b.month)

theorem prevYm_lt (mo : MonthKey) : ymLt (prevYm mo) mo := by
  unfold prevYm ymLt
  split <;> dsimp only <;> omega

theorem ymLt_irrefl (mo : MonthKey) : ¬ymLt mo mo := by
  unfold ymLt
  omega

theorem ymLt_trans {a b c : MonthKey} (h1 : ymLt a b) (h2 : ymLt b c) :
    ymLt a c := by
  unfold ymLt at *
  omega

theorem monthStep_day (md : Date) : (monthStep md).day = 1 := rfl

theorem monthStep_ym (md : Date) (hd : md.day = 1) :
    (monthStep md).ym = prevYm md.ym := by
  unfold monthStep Date.pred prevYm Date.ym
  rw [if_neg (by omega)]
  split <;> rfl

theorem monthStepIter_day (md : Date) (hd : md.day = 1) (i : Nat) :
    (monthStepIter md i).day = 1 := by
  cases i with
  | zero => exact hd
  | succ n => exact monthStep_day _

theorem monthStepIter_ym (md : Date) (hd : md.day = 1) (i : Nat) :
    (monthStepIter md i).ym = prevYm^[i] md.ym := by
  induction i with
  | zero => rfl
  | succ n ih =>
    show (monthStep (monthStepIter md n)).ym = prevYm^[n + 1] md.ym
    rw [monthStep_ym _ (monthStepIter_day md hd n), ih,
      Function.iterate_succ_apply']

theorem syncMonthDate_ym (today : Date) (i : Nat) :
    (syncMonthDate today i).ym = prevYm^[i] today.ym := by
  unfold syncMonthDate
  split
  · subst ‹i = 0›
    rfl
  · rw [monthStepIter_ym _ rfl]
    rfl

theorem prevYm_iterate_lt {i j : Nat} (hij : i < j) (mo : MonthKey) :
    ymLt (prevYm^[j] mo) (prevYm^[i] mo) := by
  induction j with
  | zero => omega
  | succ n ih =>
    have hstep : ymLt (prevYm^[n + 1] mo) (prevYm^[n] mo) := by
      rw [Function.iterate_succ_apply']
      exact prevYm_lt _
    rcases Nat.lt_succ_iff_lt_or_eq.mp hij with h' | rfl
    · exact ymLt_trans hstep (ih h')
    · exact hstep

theorem syncMonthDate_ym_inj (today : Date) {i j : Nat}
    (hij : (syncMonthDate today i).ym = (syncMonthDate today j).ym) :
    i = j := by
  rw [syncMonthDate_ym, syncMonthDate_ym] at hij
  rcases Nat.lt_trichotomy i j with hlt | heq | hgt
  · exact absurd (hij ▸ prevYm_iterate_lt hlt today.ym) (ymLt_irrefl _)
  · exact heq
  · exact absurd (hij ▸ prevYm_iterate_lt hgt today.ym) (ymLt_irrefl _)

/-! ## Store-presence stability lemmas -/

theorem filter_map_length_congr (P : Row → Bool) (f : Row → Row) :
    ∀ l : List Row, (∀ r ∈ l, P (f r) = P r) →
      ((l.map f).filter P).length = (l.filter P).length := by
  intro l
  induction l with
  | nil => intro _; rfl
  | cons a t ih =>
    intro h
    rw [List.map_cons, List.filter_cons, List.filter_cons,
      h a (List.mem_cons_self a t)]
    cases P a <;>
      simp [ih (fun r hr => h r (List.mem_cons_of_mem a hr))]

theorem filter_isEmpty_upsert (P : Row → Bool)
    (hP : ∀ (r : Row) (v : ℚ) (u : String) (dv ov odv uv : Option ℚ),
      P { r with
            value := v
            unit := u
            dollar_value := dv
            offpeak_value := ov
            offpeak_dollar_value := odv
            uncharged_value := uv } = P r)
    (s : Store) (c : String) (ts : DateTime) (iv : String) (v : ℚ)
    (u : String) (dv ov odv uv : Option ℚ) :
    ((upsert_usage s c ts iv v u dv ov odv uv).filter P).isEmpty =
      ((s.filter P).isEmpty && !P ⟨c, ts, iv, v, u, dv, ov, odv, uv⟩) := by
  unfold upsert_usage
  by_cases hex : s.any (fun r => r.key = (c, ts, iv)) = true
  · rw [if_pos hex]
    have hfe : ∀ r ∈ s,
        P (if r.key = (c, ts, iv) then
          { r with
              value := v
              unit := u
              dollar_value := dv
              offpeak_value := ov
              offpeak_dollar_value := odv
              uncharged_value := uv } else r) = P r := by
      intro r _
      by_cases hk : r.key = (c, ts, iv)
      · rw [if_pos hk, hP]
      · rw [if_neg hk]
    have hsame : ((s.map (fun r : Row => if r.key = (c, ts, iv) then
        { r with
            value := v
            unit := u
            dollar_value := dv
            offpeak_value := ov
            offpeak_dollar_value := odv
            uncharged_value := uv } else r)).filter P).length =
        (s.filter P).length :=
      filter_map_length_congr P _ s hfe
    rw [List.any_eq_true] at hex
    obtain ⟨r0, hr0mem, hr0key⟩ := hex
    simp only [decide_eq_true_eq] at hr0key
    obtain ⟨hc0, hts0, hiv0⟩ : r0.contract_id = c ∧ r0.ts = ts ∧
        r0.interval = iv := by
      unfold Row.key at hr0key
      exact ⟨congrArg Prod.fst hr0key,
        congrArg (Prod.fst ∘ Prod.snd) hr0key,
        congrArg (Prod.snd ∘ Prod.snd) hr0key⟩
    have hnew : (⟨c, ts, iv, v, u, dv, ov, odv, uv⟩ : Row) =
        { r0 with
            value := v
            unit := u
            dollar_value := dv
            offpeak_value := ov
            offpeak_dollar_value := odv
            uncharged_value := uv } := by
      cases r0
      simp_all
    have hlen_isEmpty : ∀ l1 l2 : List Row, l1.length = l2.length →
        l1.isEmpty = l2.isEmpty := by
      intro l1 l2 hl
      cases l1 <;> cases l2 <;> simp_all
    have hne_isEmpty : ∀ l : List Row, l ≠ [] → l.isEmpty = false := by
      intro l hl
      cases l
      · exact absurd rfl hl
      · rfl
    cases hPn : P ⟨c, ts, iv, v, u, dv, ov, odv, uv⟩
    · rw [Bool.not_false, Bool.and_true]
      exact hlen_isEmpty _ _ hsame
    · have hPr0 : P r0 = true := by
        rw [← hP r0 v u dv ov odv uv, ← hnew, hPn]
      have hne : (s.filter P) ≠ [] := by
        intro hnil
        have := List.mem_filter.mpr ⟨hr0mem, hPr0⟩
        rw [hnil] at this
        exact absurd this (List.not_mem_nil r0)
      have hne2 : ((s.map (fun r : Row => if r.key = (c, ts, iv) then
          { r with
              value := v
              unit := u
              dollar_value := dv
              offpeak_value := ov
              offpeak_dollar_value := odv
              uncharged_value := uv } else r)).filter P) ≠ [] := by
        intro hnil
        apply hne
        have := congrArg List.length hnil
        rw [hsame] at this
        exact List.length_eq_zero.mp this
      rw [Bool.not_true, Bool.and_false]
      exact hne_isEmpty _ hne2
  · rw [if_neg hex]
    rw [List.filter_append, List.filter_cons, List.filter_nil]
    cases hPn : P ⟨c, ts, iv, v, u, dv, ov, odv, uv⟩
    · rw [if_neg (by simp), List.append_nil, Bool.not_false, Bool.and_true]
    · rw [if_pos rfl, Bool.not_true, Bool.and_false]
      cases List.filter P s <;> rfl

theorem has_data_for_date_upsert (s : Store) (c' : String)
    (ts : DateTime) (iv' : String) (v : ℚ) (u : String)
    (dv ov odv uv : Option ℚ) (c : String) (d : Date) (iv : String) :
    has_data_for_date (upsert_usage s c' ts iv' v u dv ov odv uv) c d iv =
      (has_data_for_date s c d iv ||
        (decide (c' = c) && decide (ts.date = d) && decide (iv' = iv))) := by
  unfold has_data_for_date rowsForDate
  rw [filter_isEmpty_upsert
    (fun r => decide (r.contract_id = c ∧ r.ts.date = d ∧ r.interval = iv))
    (fun r v u dv ov odv uv => rfl)]
  have hb : ∀ a b : Bool, (!(a && !b)) = (!a || b) := by decide
  rw [hb]
  congr 1
  simp [Bool.and_assoc]

theorem has_data_for_month_upsert (s : Store) (c' : String)
    (ts : DateTime) (iv' : String) (v : ℚ) (u : String)
    (dv ov odv uv : Option ℚ) (c : String) (mo : MonthKey) :
    has_data_for_month (upsert_usage s c' ts iv' v u dv ov odv uv) c mo =
      (has_data_for_month s c mo ||
        (decide (c' = c) && decide (ts.date.ym = mo) &&
          decide (iv' = "daily"))) := by
  unfold has_data_for_month rowsForMonth
  rw [filter_isEmpty_upsert
    (fun r => decide (r.contract_id = c ∧ r.ts.date.ym = mo ∧
      r.interval = "daily"))
    (fun r v u dv ov odv uv => rfl)]
  have hb : ∀ a b : Bool, (!(a && !b)) = (!a || b) := by decide
  rw [hb]
  congr 1
  simp [Bool.and_assoc]

/-- Effect of `_fetch_hourly_from_api`'s store loop on date presence. -/
theorem has_data_for_date_storeHours (l : List UsageData) (s : Store)
    (c₀ c : String) (d : Date) (iv : String) :
    has_data_for_date
      (l.foldl (fun st h => upsert_usage st c₀ h.date "hourly" h.value
        h.unit h.dollar_value h.offpeak_value h.offpeak_dollar_value
        h.uncharged_value) s) c d iv =
      (has_data_for_date s c d iv ||
        l.any (fun h => decide (c₀ = c) && decide (h.date.date = d) &&
          decide ("hourly" = iv))) := by
  induction l generalizing s with
  | nil => simp
  | cons h0 rest ih =>
    rw [List.foldl_cons, ih, has_data_for_date_upsert, List.any_cons,
      Bool.or_assoc]

/-- Hourly writes never change month (daily-interval) presence. -/
theorem has_data_for_month_storeHours (l : List UsageData) (s : Store)
    (c₀ c : String) (mo : MonthKey) :
    has_data_for_month
      (l.foldl (fun st h => upsert_usage st c₀ h.date "hourly" h.value
        h.unit h.dollar_value h.offpeak_value h.offpeak_dollar_value
        h.uncharged_value) s) c mo = has_data_for_month s c mo := by
  induction l generalizing s with
  | nil => rfl
  | cons h0 rest ih =>
    rw [List.foldl_cons, ih, has_data_for_month_upsert]
    simp

/-- Effect of `_fetch_month_from_api`'s store loop on month presence. -/
theorem has_data_for_month_storeDaily (l : List UsageData) (s : Store)
    (c₀ c : String) (mo : MonthKey) :
    has_data_for_month
      (l.foldl (fun st u => upsert_usage st c₀ u.date "daily" u.value
        u.unit u.dollar_value u.offpeak_value u.offpeak_dollar_value
        u.uncharged_value) s) c mo =
      (has_data_for_month s c mo ||
        l.any (fun u => decide (c₀ = c) && decide (u.date.date.ym = mo))) := by
  induction l generalizing s with
  | nil => simp
  | cons u0 rest ih =>
    rw [List.foldl_cons, ih, has_data_for_month_upsert, List.any_cons,
      Bool.or_assoc]
    simp

/-! ## Adaptive-loop step lemmas -/

theorem adaptGo_cons (hapi : HourlyApi) (c : String) (force : Bool)
    (threshold : Nat) (t : Date) (ts : List Date) (st : AdaptState) :
    adaptGo hapi c force threshold (t :: ts) st =
      (if (adaptStep hapi c force threshold st t).2 then
        (adaptStep hapi c force threshold st t).1
      else adaptGo hapi c force threshold ts
        (adaptStep hapi c force threshold st t).1) := rfl

theorem adaptStep_skip (hapi : HourlyApi) (c : String) (threshold : Nat)
    (st : AdaptState) (t : Date)
    (h : has_data_for_date st.store c t "hourly" = true) :
    adaptStep hapi c false threshold st t =
      ({ st with skipped := st.skipped + 1, consecutive_empty := 0 },
        false) := by
  unfold adaptStep
  have hc : (!false && has_data_for_date st.store c t "hourly") = true := by
    rw [h]
    rfl
  rw [if_pos hc]

theorem adaptStep_fresh_empty (hapi : HourlyApi) (c : String)
    (force : Bool) (threshold : Nat) (st : AdaptState) (t : Date)
    (h : (!force && has_data_for_date st.store c t "hourly") = false)
    (he : hapi t = []) :
    adaptStep hapi c force threshold st t =
      ({ st with
          consecutive_empty := st.consecutive_empty + 1
          emptyDays := st.emptyDays + 1
          fetched := st.fetched ++ [t] },
        decide (threshold ≤ st.consecutive_empty + 1)) := by
  unfold adaptStep
  rw [if_neg (by rw [h]; simp)]
  have hf : fetch_hourly_from_api st.store hapi c t = ([], st.store) := by
    unfold fetch_hourly_from_api
    rw [he]
    rfl
  rw [hf]
  rfl

theorem adaptStep_fresh_nonempty (hapi : HourlyApi) (c : String)
    (force : Bool) (threshold : Nat) (st : AdaptState) (t : Date)
    (h : (!force && has_data_for_date st.store c t "hourly") = false)
    (he : hapi t ≠ []) :
    adaptStep hapi c force threshold st t =
      ({ st with
          store := (fetch_hourly_from_api st.store hapi c t).2
          consecutive_empty := 0
          synced := st.synced + 1
          oldest_data_date := some t
          fetched := st.fetched ++ [t] },
        false) := by
  unfold adaptStep
  rw [if_neg (by rw [h]; simp)]
  have hie : (fetch_hourly_from_api st.store hapi c t).1.isEmpty = false := by
    show (hapi t).isEmpty = false
    cases hht : hapi t
    · exact absurd hht he
    · rfl
  rcases hfp : fetch_hourly_from_api st.store hapi c t with ⟨hours, s'⟩
  rw [hfp] at hie
  dsimp only at hie ⊢
  rw [if_neg (by rw [hie]; simp)]

/-! ## C8: skip resets the consecutive-empty counter -/

theorem c8_loop (hapi : HourlyApi) (c : String) (s : Store)
    (start : Date) (m : Nat)
    (hm : ∀ i, has_data_for_date s c (start.sub i) "hourly" =
      decide (i < m))
    (hempty : ∀ d, hapi d = []) :
    ∀ (n k : Nat) (st : AdaptState), st.store = s →
      st.consecutive_empty = 0 → k ≤ m → m + 3 ≤ k + n →
      adaptGo hapi c false 3 ((List.range' k n).map start.sub) st =
        ⟨st.store, 3, st.synced, st.skipped + (m - k), st.emptyDays + 3,
          st.oldest_data_date,
          st.fetched ++ [start.sub m, start.sub (m + 1),
            start.sub (m + 2)]⟩ := by
  intro n
  induction n with
  | zero =>
    intro k st _ _ hk hkn
    omega
  | succ n ih =>
    intro k st hs hce hk hkn
    rw [List.range'_succ, List.map_cons, adaptGo_cons]
    by_cases hkm : k < m
    · rw [adaptStep_skip hapi c 3 st (start.sub k)
        (by rw [hs, hm k]; simp [hkm])]
      rw [if_neg (by simp)]
      rw [ih (k + 1)
        { st with skipped := st.skipped + 1, consecutive_empty := 0 }
        hs rfl (by omega) (by omega)]
      have harith : st.skipped + 1 + (m - (k + 1)) = st.skipped + (m - k) :=
        by omega
      dsimp only
      rw [harith]
    · have hkeq : k = m := by omega
      subst hkeq
      obtain ⟨n2, rfl⟩ : ∃ n2, n = n2 + 2 := ⟨n - 2, by omega⟩
      rw [adaptStep_fresh_empty hapi c false 3 st (start.sub k)
        (by rw [hs, hm k]; simp) (hempty _)]
      rw [hce]
      rw [if_neg (by dsimp only; decide)]
      rw [List.range'_succ, List.map_cons, adaptGo_cons]
      rw [adaptStep_fresh_empty hapi c false 3 _ (start.sub (k + 1))
        (by simp [hs, hm]) (hempty _)]
      rw [if_neg (by dsimp only; decide)]
      rw [List.range'_succ, List.map_cons, adaptGo_cons]
      rw [adaptStep_fresh_empty hapi c false 3 _ (start.sub (k + 2))
        (by simp [hs, hm]) (hempty _)]
      rw [if_pos (by dsimp only; decide)]
      dsimp only
      congr 1 <;> try omega
      simp

theorem adaptive_run_projections (s : Store) (hapi : HourlyApi)
    (mapi : MonthlyApi) (c : String) (include_months : Nat) (force : Bool)
    (start today : Date) (max_days threshold : Nat) :
    (sync_contract_data_adaptive s hapi mapi c include_months force start
        today max_days threshold).fetched_days =
      (adaptGo hapi c force threshold (adaptTargets start max_days)
        ⟨s, 0, 0, 0, 0, none, []⟩).fetched ∧
    (sync_contract_data_adaptive s hapi mapi c include_months force start
        today max_days threshold).hourly_days_skipped =
      (adaptGo hapi c force threshold (adaptTargets start max_days)
        ⟨s, 0, 0, 0, 0, none, []⟩).skipped ∧
    (sync_contract_data_adaptive s hapi mapi c include_months force start
        today max_days threshold).hourly_days_synced =
      (adaptGo hapi c force threshold (adaptTargets start max_days)
        ⟨s, 0, 0, 0, 0, none, []⟩).synced ∧
    (sync_contract_data_adaptive s hapi mapi c include_months force start
        today max_days threshold).oldest_data_date =
      (adaptGo hapi c force threshold (adaptTargets start max_days)
        ⟨s, 0, 0, 0, 0, none, []⟩).oldest_data_date :=
  ⟨rfl, rfl, rfl, rfl⟩

theorem adaptTargets_eq_range' (start : Date) (n : Nat) :
    adaptTargets start n = (List.range' 0 n).map start.sub := by
  rw [adaptTargets, List.range_eq_range']

/-- C8: in the adaptive backfill with force=false, a day skipped because
data is already present resets the consecutive-empty counter to zero (and
performs no fetch), while a freshly-fetched empty day increments it; so
with data present for exactly the first m positions and an upstream that
is empty from there on, the threshold count restarts at the data horizon
and the run fetches exactly the three days after it. -/
theorem C8_skip_resets_empty_counter (hapi : HourlyApi)
    (mapi : MonthlyApi) (c : String) (threshold : Nat) (st : AdaptState)
    (t : Date) (s : Store) (start today : Date)
    (m max_days include_months : Nat) :
    (has_data_for_date st.store c t "hourly" = true →
      adaptStep hapi c false threshold st t =
        ({ st with skipped := st.skipped + 1, consecutive_empty := 0 },
          false)) ∧
    (has_data_for_date st.store c t "hourly" = false → hapi t = [] →
      (adaptStep hapi c false threshold st t).1.consecutive_empty =
        st.consecutive_empty + 1) ∧
    ((∀ i, has_data_for_date s c (start.sub i) "hourly" =
        decide (i < m)) →
      (∀ d, hapi d = []) → m + 3 ≤ max_days →
      (sync_contract_data_adaptive s hapi mapi c include_months false
          start today max_days 3).fetched_days =
        [start.sub m, start.sub (m + 1), start.sub (m + 2)] ∧
      (sync_contract_data_adaptive s hapi mapi c include_months false
          start today max_days 3).hourly_days_skipped = m) := by
  refine ⟨fun h => adaptStep_skip hapi c threshold st t h,
    fun h he => ?_, fun hm hempty hmax => ?_⟩
  · rw [adaptStep_fresh_empty hapi c false threshold st t
      (by rw [h]; simp) he]
  · have hloop := c8_loop hapi c s start m hm hempty max_days 0
      ⟨s, 0, 0, 0, 0, none, []⟩ rfl rfl (by omega) (by omega)
    obtain ⟨hf, hsk, _, _⟩ := adaptive_run_projections s hapi mapi c
      include_months false start today max_days 3
    constructor
    · rw [hf, adaptTargets_eq_range', hloop]
      simp
    · rw [hsk, adaptTargets_eq_range', hloop]
      simp

/-- Upstream stub used in the C8 witness: empty everywhere. -/
def c8hapi : HourlyApi := fun _ => []

/-- Store used in the C8 witness: hourly data exists exactly for
2026-01-10 (backfill position 0). -/
def c8store : Store :=
  [⟨"c1", ⟨⟨2026, 1, 10⟩, 0⟩, "hourly", 1, "kWh", none, none, none, none⟩]

theorem c8store_positions (i : Nat) :
    has_data_for_date c8store "c1" ((⟨2026, 1, 10⟩ : Date).sub i)
      "hourly" = decide (i < 1) := by
  cases i with
  | zero => decide
  | succ n =>
    have hv : (⟨2026, 1, 10⟩ : Date).Valid := by decide
    have hne : (⟨2026, 1, 10⟩ : Date).sub (n + 1) ≠ ⟨2026, 1, 10⟩ := by
      intro he
      have hlt := Date.sub_lt_sub hv (Nat.succ_pos n)
      rw [he] at hlt
      exact Date.lt_irrefl _ hlt
    simp [has_data_for_date, rowsForDate, c8store, List.filter,
      hne.symm]

theorem C8_witness :
    adaptStep c8hapi "c1" false 3 ⟨c8store, 0, 0, 0, 0, none, []⟩
        ⟨2026, 1, 10⟩ =
      (⟨c8store, 0, 0, 1, 0, none, []⟩, false) ∧
    (sync_contract_data_adaptive c8store c8hapi (fun _ => []) "c1" 0
        false ⟨2026, 1, 10⟩ ⟨2026, 1, 10⟩ 10 3).fetched_days =
      [(⟨2026, 1, 10⟩ : Date).sub 1, (⟨2026, 1, 10⟩ : Date).sub 2,
        (⟨2026, 1, 10⟩ : Date).sub 3] ∧
    (sync_contract_data_adaptive c8store c8hapi (fun _ => []) "c1" 0
        false ⟨2026, 1, 10⟩ ⟨2026, 1, 10⟩ 10 3).hourly_days_skipped = 1 :=
  ⟨(C8_skip_resets_empty_counter c8hapi (fun _ => []) "c1" 3
      ⟨c8store, 0, 0, 0, 0, none, []⟩ ⟨2026, 1, 10⟩ c8store
      ⟨2026, 1, 10⟩ ⟨2026, 1, 10⟩ 1 10 0).1 (by decide),
   ((C8_skip_resets_empty_counter c8hapi (fun _ => []) "c1" 3
      ⟨c8store, 0, 0, 0, 0, none, []⟩ ⟨2026, 1, 10⟩ c8store
      ⟨2026, 1, 10⟩ ⟨2026, 1, 10⟩ 1 10 0).2.2 c8store_positions
      (fun _ => rfl) (by decide)).1,
   ((C8_skip_resets_empty_counter c8hapi (fun _ => []) "c1" 3
      ⟨c8store, 0, 0, 0, 0, none, []⟩ ⟨2026, 1, 10⟩ c8store
      ⟨2026, 1, 10⟩ ⟨2026, 1, 10⟩ 1 10 0).2.2 c8store_positions
      (fun _ => rfl) (by decide)).2⟩

/-! ## C1: adaptive termination -/

theorem trailingEmpty_succ_empty (hapi : HourlyApi) (start : Date)
    (k : Nat) (h : hapi (start.sub k) = []) :
    trailingEmpty hapi start (k + 1) = trailingEmpty hapi start k + 1 := by
  simp [trailingEmpty, h]

theorem trailingEmpty_succ_nonempty (hapi : HourlyApi) (start : Date)
    (k : Nat) (h : ¬hapi (start.sub k) = []) :
    trailingEmpty hapi start (k + 1) = 0 := by
  simp [trailingEmpty, h]

theorem c1_loop (hapi : HourlyApi) (c : String) (start : Date) (p : Nat)
    (hmin : ∀ j, j < p →
      ¬(hapi (start.sub j) = [] ∧ 2 ≤ trailingEmpty hapi start j))
    (hp1 : hapi (start.sub p) = [])
    (hp2 : 2 ≤ trailingEmpty hapi start p) :
    ∀ (n k : Nat) (st : AdaptState), k ≤ p → p < k + n →
      st.consecutive_empty = trailingEmpty hapi start k →
      (adaptGo hapi c true 3 ((List.range' k n).map start.sub) st).fetched
        = st.fetched ++ (List.range' k (p + 1 - k)).map start.sub := by
  intro n
  induction n with
  | zero =>
    intro k st hk hkn
    omega
  | succ n ih =>
    intro k st hk hkn hce
    rw [List.range'_succ, List.map_cons, adaptGo_cons]
    by_cases hkp : k < p
    · by_cases hek : hapi (start.sub k) = []
      · have htc : ¬2 ≤ trailingEmpty hapi start k := fun hge =>
          hmin k hkp ⟨hek, hge⟩
        rw [adaptStep_fresh_empty hapi c true 3 st (start.sub k)
          (by simp) hek]
        rw [hce]
        rw [if_neg (by dsimp only; simp; omega)]
        rw [ih (k + 1) _ (by omega) (by omega)
          (by dsimp only; rw [trailingEmpty_succ_empty hapi start k hek])]
        dsimp only
        rw [show p + 1 - k = (p - k) + 1 from by omega,
          List.range'_succ, List.map_cons]
        rw [show p + 1 - (k + 1) = p - k from by omega]
        simp
      · rw [adaptStep_fresh_nonempty hapi c true 3 st (start.sub k)
          (by simp) hek]
        rw [if_neg (by simp)]
        rw [ih (k + 1) _ (by omega) (by omega)
          (by dsimp only
              rw [trailingEmpty_succ_nonempty hapi start k hek])]
        dsimp only
        rw [show p + 1 - k = (p - k) + 1 from by omega,
          List.range'_succ, List.map_cons]
        rw [show p + 1 - (k + 1) = p - k from by omega]
        simp
    · have hkeq : k = p := by omega
      subst hkeq
      rw [adaptStep_fresh_empty hapi c true 3 st (start.sub k)
        (by simp) hp1]
      rw [hce]
      rw [if_pos (by dsimp only; simp; omega)]
      dsimp only
      rw [show k + 1 - k = 1 from by omega]
      rfl

/-- C1: in `sync_contract_data_adaptive` with the default empty-days
threshold 3 and no skipping, over any upstream stub, the backward
day-by-day loop fetches exactly the dates down to the first position p at
which three consecutive freshly-fetched days are empty, stops there, and
never fetches any earlier (older) date; and at every step a non-empty
fetch resets the consecutive-empty counter to 0 and records its date as
the oldest-synced watermark. -/
theorem C1_adaptive_termination (s : Store) (hapi : HourlyApi)
    (mapi : MonthlyApi) (c : String) (include_months : Nat)
    (start today : Date) (max_days p : Nat)
    (hvalid : start.Valid)
    (hmin : ∀ j, j < p →
      ¬(hapi (start.sub j) = [] ∧ 2 ≤ trailingEmpty hapi start j))
    (hp1 : hapi (start.sub p) = [])
    (hp2 : 2 ≤ trailingEmpty hapi start p)
    (hmax : p < max_days) :
    (sync_contract_data_adaptive s hapi mapi c include_months true start
        today max_days 3).fetched_days = (List.range (p + 1)).map start.sub ∧
    (∀ i, p < i → start.sub i ∉
      (sync_contract_data_adaptive s hapi mapi c include_months true start
        today max_days 3).fetched_days) ∧
    (∀ (st : AdaptState) (t : Date), hapi t ≠ [] →
      (adaptStep hapi c true 3 st t).1.consecutive_empty = 0 ∧
      (adaptStep hapi c true 3 st t).1.oldest_data_date = some t) := by
  have hrun : (sync_contract_data_adaptive s hapi mapi c include_months
      true start today max_days 3).fetched_days =
      (List.range (p + 1)).map start.sub := by
    obtain ⟨hf, _, _, _⟩ := adaptive_run_projections s hapi mapi c
      include_months true start today max_days 3
    rw [hf, adaptTargets_eq_range']
    rw [c1_loop hapi c start p hmin hp1 hp2 max_days 0
      ⟨s, 0, 0, 0, 0, none, []⟩ (by omega) (by omega) rfl]
    rw [List.range_eq_range']
    simp
  refine ⟨hrun, ?_, ?_⟩
  · intro i hi hmem
    rw [hrun] at hmem
    obtain ⟨j, hjmem, hjeq⟩ := List.mem_map.mp hmem
    have hji := Date.sub_inj hvalid hjeq
    rw [List.mem_range] at hjmem
    omega
  · intro st t ht
    rw [adaptStep_fresh_nonempty hapi c true 3 st t (by simp) ht]
    exact ⟨rfl, rfl⟩

/-- Upstream stub used in the C1 witness: empty for every date, so the
first position with three trailing empties is p = 2. -/
def c1hapi : HourlyApi := fun _ => []

theorem C1_witness :
    (sync_contract_data_adaptive [] c1hapi (fun _ => []) "c1" 0 true
        ⟨2026, 1, 10⟩ ⟨2026, 1, 10⟩ 10 3).fetched_days =
      (List.range (2 + 1)).map (Date.sub ⟨2026, 1, 10⟩) :=
  (C1_adaptive_termination [] c1hapi (fun _ => []) "c1" 0
    ⟨2026, 1, 10⟩ ⟨2026, 1, 10⟩ 10 2 (by decide)
    (by intro j hj
        interval_cases j <;> simp [trailingEmpty, c1hapi])
    rfl (by decide) (by decide)).1

/-! ## C4: database-first precedence -/

theorem syncDayStep_skip (hapi : HourlyApi) (c : String) (today : Date)
    (st : DayLoopState) (i : Nat)
    (h : has_data_for_date st.store c (today.sub i) "hourly" = true) :
    syncDayStep hapi c false today st i =
      { st with skipped := st.skipped + 1 } := by
  unfold syncDayStep
  rw [if_pos (by rw [h]; rfl)]

theorem syncDayStep_fetch (hapi : HourlyApi) (c : String) (today : Date)
    (st : DayLoopState) (i : Nat)
    (h : has_data_for_date st.store c (today.sub i) "hourly" = false) :
    syncDayStep hapi c false today st i =
      { store := (fetch_hourly_from_api st.store hapi c (today.sub i)).2
        synced := st.synced +
          (if (fetch_hourly_from_api st.store hapi c
            (today.sub i)).1.isEmpty then 0 else 1)
        skipped := st.skipped
        fetched := st.fetched ++ [today.sub i] } := by
  unfold syncDayStep
  rw [if_neg (by rw [h]; simp)]

theorem fetch_hourly_store (s : Store) (hapi : HourlyApi) (c : String)
    (t : Date) :
    (fetch_hourly_from_api s hapi c t).2 =
      (hapi t).foldl (fun st h => upsert_usage st c h.date "hourly"
        h.value h.unit h.dollar_value h.offpeak_value
        h.offpeak_dollar_value h.uncharged_value) s := rfl

theorem c4_dayLoop (hapi : HourlyApi) (c : String) (today : Date)
    (s0 : Store)
    (hal : ∀ d u, u ∈ hapi d → u.date.date = d)
    (hvalid : today.Valid) :
    ∀ (n k : Nat) (st : DayLoopState),
      (∀ i, k ≤ i → has_data_for_date st.store c (today.sub i) "hourly" =
        has_data_for_date s0 c (today.sub i) "hourly") →
      ((List.range' k n).foldl (syncDayStep hapi c false today)
          st).skipped =
        st.skipped + ((List.range' k n).filter
          (fun i => has_data_for_date s0 c (today.sub i)
            "hourly")).length ∧
      ((List.range' k n).foldl (syncDayStep hapi c false today)
          st).fetched =
        st.fetched ++ ((List.range' k n).filter
          (fun i => !has_data_for_date s0 c (today.sub i)
            "hourly")).map (fun i => today.sub i) ∧
      (∀ mo, has_data_for_month
        ((List.range' k n).foldl (syncDayStep hapi c false today)
          st).store c mo = has_data_for_month st.store c mo) := by
  intro n
  induction n with
  | zero =>
    intro k st _
    refine ⟨by simp, by simp, fun mo => rfl⟩
  | succ n ih =>
    intro k st hst
    rw [List.range'_succ]
    rw [List.foldl_cons]
    cases hd : has_data_for_date s0 c (today.sub k) "hourly"
    · -- fetch step
      rw [List.filter_cons_of_neg (by simp [hd]),
        List.filter_cons_of_pos (by simp [hd])]
      have hstk : has_data_for_date st.store c (today.sub k) "hourly" =
          false := by rw [hst k (le_refl k), hd]
      rw [syncDayStep_fetch hapi c today st k hstk]
      have hstore : ∀ i, k + 1 ≤ i →
          has_data_for_date
            (fetch_hourly_from_api st.store hapi c (today.sub k)).2 c
            (today.sub i) "hourly" =
          has_data_for_date s0 c (today.sub i) "hourly" := by
        intro i hi
        rw [fetch_hourly_store, has_data_for_date_storeHours]
        have hany : (hapi (today.sub k)).any
            (fun h => decide (c = c) && decide (h.date.date = today.sub i)
              && decide ("hourly" = "hourly")) = false := by
          rw [List.any_eq_false]
          intro u hu
          have hud := hal (today.sub k) u hu
          simp only [hud, Bool.and_eq_true, decide_eq_true_eq]
          intro hcc
          exact absurd (Date.sub_inj hvalid hcc.1.2) (by omega)
        rw [hany, Bool.or_false]
        exact hst i (by omega)
      obtain ⟨ihs, ihf, ihm⟩ := ih (k + 1)
        { store := (fetch_hourly_from_api st.store hapi c (today.sub k)).2
          synced := st.synced +
            (if (fetch_hourly_from_api st.store hapi c
              (today.sub k)).1.isEmpty then 0 else 1)
          skipped := st.skipped
          fetched := st.fetched ++ [today.sub k] } hstore
      refine ⟨?_, ?_, ?_⟩
      · rw [ihs]
      · rw [ihf]
        simp [List.append_assoc]
      · intro mo
        rw [ihm mo]
        dsimp only
        rw [fetch_hourly_store, has_data_for_month_storeHours]
    · -- skip step
      rw [List.filter_cons_of_pos (by simp [hd]),
        List.filter_cons_of_neg (by simp [hd])]
      have hstk : has_data_for_date st.store c (today.sub k) "hourly" =
          true := by rw [hst k (le_refl k), hd]
      rw [syncDayStep_skip hapi c today st k hstk]
      obtain ⟨ihs, ihf, ihm⟩ := ih (k + 1)
        { st with skipped := st.skipped + 1 }
        (fun i hi => hst i (by omega))
      refine ⟨?_, ?_, ?_⟩
      · rw [ihs]
        simp only [List.length_cons]
        omega
      · rw [ihf]
      · intro mo
        rw [ihm mo]

theorem syncMonthStep_skip (mapi : MonthlyApi) (c : String)
    (today : Date) (st : MonthLoopState) (j : Nat)
    (h : has_data_for_month st.store c ((syncMonthDate today j).ym) =
      true) :
    syncMonthStep mapi c false today st j =
      { st with skipped := st.skipped + 1 } := by
  unfold syncMonthStep
  rw [if_pos (by rw [h]; rfl)]

theorem syncMonthStep_fetch (mapi : MonthlyApi) (c : String)
    (today : Date) (st : MonthLoopState) (j : Nat)
    (h : has_data_for_month st.store c ((syncMonthDate today j).ym) =
      false) :
    syncMonthStep mapi c false today st j =
      { store := (fetch_month_from_api st.store mapi c
          ((syncMonthDate today j).ym)).2
        synced := st.synced +
          (if (fetch_month_from_api st.store mapi c
            ((syncMonthDate today j).ym)).1.isSome then 1 else 0)
        skipped := st.skipped
        fetched := st.fetched ++ [(syncMonthDate today j).ym] } := by
  unfold syncMonthStep
  rw [if_neg (by rw [h]; simp)]

theorem fetch_month_store (s : Store) (mapi : MonthlyApi) (c : String)
    (mo : MonthKey) :
    (fetch_month_from_api s mapi c mo).2 =
      (mapi mo).foldl (fun st u => upsert_usage st c u.date "daily"
        u.value u.unit u.dollar_value u.offpeak_value
        u.offpeak_dollar_value u.uncharged_value) s := by
  unfold fetch_month_from_api
  dsimp only
  split
  · rename_i hm
    rw [List.isEmpty_iff.mp hm]
    rfl
  · rfl

theorem c4_monthLoop (mapi : MonthlyApi) (c : String) (today : Date)
    (s1 : Store)
    (hmal : ∀ mo u, u ∈ mapi mo → u.date.date.ym = mo) :
    ∀ (n k : Nat) (st : MonthLoopState),
      (∀ j, k ≤ j →
        has_data_for_month st.store c ((syncMonthDate today j).ym) =
        has_data_for_month s1 c ((syncMonthDate today j).ym)) →
      ((List.range' k n).foldl (syncMonthStep mapi c false today)
          st).skipped =
        st.skipped + ((List.range' k n).filter
          (fun j => has_data_for_month s1 c
            ((syncMonthDate today j).ym))).length ∧
      ((List.range' k n).foldl (syncMonthStep mapi c false today)
          st).fetched =
        st.fetched ++ ((List.range' k n).filter
          (fun j => !has_data_for_month s1 c
            ((syncMonthDate today j).ym))).map
          (fun j => (syncMonthDate today j).ym) := by
  intro n
  induction n with
  | zero =>
    intro k st _
    exact ⟨by simp, by simp⟩
  | succ n ih =>
    intro k st hst
    rw [List.range'_succ]
    rw [List.foldl_cons]
    cases hd : has_data_for_month s1 c ((syncMonthDate today k).ym)
    · rw [List.filter_cons_of_neg (by simp [hd]),
        List.filter_cons_of_pos (by simp [hd])]
      have hstk : has_data_for_month st.store c
          ((syncMonthDate today k).ym) = false := by
        rw [hst k (le_refl k), hd]
      rw [syncMonthStep_fetch mapi c today st k hstk]
      have hstore : ∀ j, k + 1 ≤ j →
          has_data_for_month
            (fetch_month_from_api st.store mapi c
              ((syncMonthDate today k).ym)).2 c
            ((syncMonthDate today j).ym) =
          has_data_for_month s1 c ((syncMonthDate today j).ym) := by
        intro j hj
        rw [fetch_month_store, has_data_for_month_storeDaily]
        have hany : (mapi ((syncMonthDate today k).ym)).any
            (fun u => decide (c = c) &&
              decide (u.date.date.ym = (syncMonthDate today j).ym)) =
            false := by
          rw [List.any_eq_false]
          intro u hu
          have hum := hmal ((syncMonthDate today k).ym) u hu
          simp only [hum, Bool.and_eq_true, decide_eq_true_eq]
          intro hcc
          exact absurd (syncMonthDate_ym_inj today hcc.2) (by omega)
        rw [hany, Bool.or_false]
        exact hst j (by omega)
      obtain ⟨ihs, ihf⟩ := ih (k + 1)
        { store := (fetch_month_from_api st.store mapi c
            ((syncMonthDate today k).ym)).2
          synced := st.synced +
            (if (fetch_month_from_api st.store mapi c
              ((syncMonthDate today k).ym)).1.isSome then 1 else 0)
          skipped := st.skipped
          fetched := st.fetched ++ [(syncMonthDate today k).ym] } hstore
      refine ⟨?_, ?_⟩
      · rw [ihs]
      · rw [ihf]
        simp [List.append_assoc]
    · rw [List.filter_cons_of_pos (by simp [hd]),
        List.filter_cons_of_neg (by simp [hd])]
      have hstk : has_data_for_month st.store c
          ((syncMonthDate today k).ym) = true := by
        rw [hst k (le_refl k), hd]
      rw [syncMonthStep_skip mapi c today st k hstk]
      obtain ⟨ihs, ihf⟩ := ih (k + 1)
        { st with skipped := st.skipped + 1 }
        (fun j hj => hst j (by omega))
      refine ⟨?_, ?_⟩
      · rw [ihs]
        simp only [List.length_cons]
        omega
      · rw [ihf]

theorem sync_run_projections (s : Store) (hapi : HourlyApi)
    (mapi : MonthlyApi) (c : String) (days_back include_months : Nat)
    (force : Bool) (today : Date) :
    (sync_contract_data s hapi mapi c days_back include_months force
        today).hourly_days_skipped =
      ((List.range days_back).foldl (syncDayStep hapi c force today)
        ⟨s, 0, 0, []⟩).skipped ∧
    (sync_contract_data s hapi mapi c days_back include_months force
        today).fetched_days =
      ((List.range days_back).foldl (syncDayStep hapi c force today)
        ⟨s, 0, 0, []⟩).fetched ∧
    (sync_contract_data s hapi mapi c days_back include_months force
        today).months_skipped =
      ((List.range include_months).foldl (syncMonthStep mapi c force
        today)
        ⟨((List.range days_back).foldl (syncDayStep hapi c force today)
          ⟨s, 0, 0, []⟩).store, 0, 0, []⟩).skipped ∧
    (sync_contract_data s hapi mapi c days_back include_months force
        today).fetched_months =
      ((List.range include_months).foldl (syncMonthStep mapi c force
        today)
        ⟨((List.range days_back).foldl (syncDayStep hapi c force today)
          ⟨s, 0, 0, []⟩).store, 0, 0, []⟩).fetched :=
  ⟨rfl, rfl, rfl, rfl⟩

/-- C4: in `sync_contract_data` with force=false, every day of the window
that already has an hourly row in the store is never fetched upstream and
is counted in hourly_days_skipped (which equals exactly the number of
already-present days); likewise every month of the window that already
has daily rows is never fetched and months_skipped counts exactly the
already-present months. -/
theorem C4_database_first (s : Store) (hapi : HourlyApi)
    (mapi : MonthlyApi) (c : String) (days_back include_months : Nat)
    (today : Date)
    (hvalid : today.Valid)
    (hal : ∀ d u, u ∈ hapi d → u.date.date = d)
    (hmal : ∀ mo u, u ∈ mapi mo → u.date.date.ym = mo) :
    (∀ i, i < days_back →
      has_data_for_date s c (today.sub i) "hourly" = true →
      today.sub i ∉ (sync_contract_data s hapi mapi c days_back
        include_months false today).fetched_days) ∧
    (sync_contract_data s hapi mapi c days_back include_months false
        today).hourly_days_skipped =
      ((List.range days_back).filter
        (fun i => has_data_for_date s c (today.sub i) "hourly")).length ∧
    (∀ j, j < include_months →
      has_data_for_month s c ((syncMonthDate today j).ym) = true →
      (syncMonthDate today j).ym ∉ (sync_contract_data s hapi mapi c
        days_back include_months false today).fetched_months) ∧
    (sync_contract_data s hapi mapi c days_back include_months false
        today).months_skipped =
      ((List.range include_months).filter
        (fun j => has_data_for_month s c
          ((syncMonthDate today j).ym))).length := by
  obtain ⟨hps, hpf, hpms, hpmf⟩ := sync_run_projections s hapi mapi c
    days_back include_months false today
  simp only [List.range_eq_range'] at hps hpf hpms hpmf ⊢
  obtain ⟨hds, hdf, hdm⟩ := c4_dayLoop hapi c today s hal hvalid
    days_back 0 ⟨s, 0, 0, []⟩ (fun i _ => rfl)
  obtain ⟨hms, hmf⟩ := c4_monthLoop mapi c today s hmal include_months 0
    ⟨((List.range' 0 days_back).foldl (syncDayStep hapi c false today)
      ⟨s, 0, 0, []⟩).store, 0, 0, []⟩
    (fun j _ => hdm ((syncMonthDate today j).ym))
  refine ⟨?_, ?_, ?_, ?_⟩
  · intro i hi hdata hmem
    rw [hpf, hdf] at hmem
    dsimp only at hmem
    rw [List.nil_append] at hmem
    obtain ⟨j, hjmem, hjeq⟩ := List.mem_map.mp hmem
    obtain ⟨hjr, hjp⟩ := List.mem_filter.mp hjmem
    have hji := Date.sub_inj hvalid hjeq
    rw [hji, hdata] at hjp
    simp at hjp
  · rw [hps, hds]
    simp
  · intro j hj hdata hmem
    rw [hpmf, hmf] at hmem
    dsimp only at hmem
    rw [List.nil_append] at hmem
    obtain ⟨j', hj'mem, hj'eq⟩ := List.mem_map.mp hmem
    obtain ⟨hj'r, hj'p⟩ := List.mem_filter.mp hj'mem
    have hjj := syncMonthDate_ym_inj today hj'eq
    rw [hjj, hdata] at hj'p
    simp at hj'p
  · rw [hpms, hms]
    simp

/-- Store used in the C4 witness: hourly data for 2026-02-10 and daily
data for 2026-02. -/
def c4store : Store :=
  [⟨"c1", ⟨⟨2026, 2, 10⟩, 0⟩, "hourly", 1, "kWh", none, none, none, none⟩,
   ⟨"c1", ⟨⟨2026, 2, 3⟩, 0⟩, "daily", 2, "kWh", none, none, none, none⟩]

theorem C4_witness :
    (¬((⟨2026, 2, 10⟩ : Date).sub 0 ∈
      (sync_contract_data c4store (fun _ => []) (fun _ => []) "c1" 2 1
        false ⟨2026, 2, 10⟩).fetched_days)) ∧
    (sync_contract_data c4store (fun _ => []) (fun _ => []) "c1" 2 1
        false ⟨2026, 2, 10⟩).hourly_days_skipped =
      ((List.range 2).filter
        (fun i => has_data_for_date c4store "c1"
          ((⟨2026, 2, 10⟩ : Date).sub i) "hourly")).length ∧
    (sync_contract_data c4store (fun _ => []) (fun _ => []) "c1" 2 1
        false ⟨2026, 2, 10⟩).months_skipped =
      ((List.range 1).filter
        (fun j => has_data_for_month c4store "c1"
          ((syncMonthDate ⟨2026, 2, 10⟩ j).ym))).length :=
  ⟨(C4_database_first c4store (fun _ => []) (fun _ => []) "c1" 2 1
      ⟨2026, 2, 10⟩ (by decide) (by intro d u hu; cases hu)
      (by intro mo u hu; cases hu)).1 0 (by decide) (by decide),
   (C4_database_first c4store (fun _ => []) (fun _ => []) "c1" 2 1
      ⟨2026, 2, 10⟩ (by decide) (by intro d u hu; cases hu)
      (by intro mo u hu; cases hu)).2.1,
   (C4_database_first c4store (fun _ => []) (fun _ => []) "c1" 2 1
      ⟨2026, 2, 10⟩ (by decide) (by intro d u hu; cases hu)
      (by intro mo u hu; cases hu)).2.2.2⟩

end ContactEnergyNZ
